import Mathlib

/-!
# Verification of the video-game pipeline's record-linkage core

Shallow embedding of `src/processors/data_merger.py`,
`src/processors/data_cleaner.py` and the validation op of
`src/dagster_pipeline/ops.py`.

Modelling conventions:
* Python floats are modelled as `ℚ` (all arithmetic appearing in the code —
  `x * 0.7 + y * 0.3`, `m * 0.6 + r * 0.4`, ratios `2*M/T` — is exact on the
  inputs of interest, so no rounding behaviour is lost).
* Pandas `NaN` / Python `None` for a field is `Option.none`; a fallible call
  (one that can raise) returns `Option` at the function level.
* Strings are ASCII in all scraped data of interest; `str.lower`, `\d`, `\s`
  and `str.strip` are modelled on ASCII characters.
-/

namespace VGP

/-! ## Character helpers -/

/-- Python `\s` / `str.strip` whitespace characters (ASCII fragment). -/
def isPySpace (c : Char) : Bool :=
  c = ' ' ∨ c = '\t' ∨ c = '\n' ∨ c = '\r' ∨ c = '\x0b' ∨ c = '\x0c'

/-- Python `\d` (ASCII fragment): one of the ten digit characters. -/
def isDigitCh (c : Char) : Bool :=
  c = '0' ∨ c = '1' ∨ c = '2' ∨ c = '3' ∨ c = '4' ∨
  c = '5' ∨ c = '6' ∨ c = '7' ∨ c = '8' ∨ c = '9'

/-- Numeric value of a digit character. -/
def digitVal (c : Char) : Nat := c.toNat - '0'.toNat

/-- The digit character for `n < 10` (used to model `str(int)` / `strftime`). -/
def digitCh (n : Nat) : Char :=
  match n with
  | 0 => '0' | 1 => '1' | 2 => '2' | 3 => '3' | 4 => '4'
  | 5 => '5' | 6 => '6' | 7 => '7' | 8 => '8' | 9 => '9'
  | _ => '*'

/-- `str.lower` on an ASCII character. -/
def lowerCh (c : Char) : Char :=
  if 'A' ≤ c ∧ c ≤ 'Z' then Char.ofNat (c.toNat + 32) else c

/-- Python `str.strip()`: drop leading and trailing whitespace. -/
def stripList (cs : List Char) : List Char :=
  (cs.dropWhile isPySpace).rdropWhile isPySpace

/-! ## `difflib.SequenceMatcher.ratio`

`DataMerger.string_similarity` calls
`SequenceMatcher(None, a.lower(), b.lower()).ratio()`.  `ratio` is
`2*M/T` where `M` is the total size of the matching blocks found by
repeatedly taking the longest matching block (earliest in `a`, then earliest
in `b`, among blocks of maximal length) and recursing on the pieces to its
left and to its right, and `T = len(a) + len(b)`.  The `autojunk`
heuristic only activates for strings of length ≥ 200 and is not modelled:
every string compared by the merger (titles, developer names) is far
shorter. -/

/-- Length of the longest common run at the heads of the two lists. -/
def runLen : List Char → List Char → Nat
  | a :: as, b :: bs => if a = b then runLen as bs + 1 else 0
  | _, _ => 0

/-- All candidate match positions `(i, j, k)` where `k` is the length of the
common run of `a.drop i` and `b.drop j`, in the scan order of
`SequenceMatcher.find_longest_match`. -/
def matchCands (a b : List Char) : List (Nat × Nat × Nat) :=
  (List.range a.length).flatMap fun i =>
    (List.range b.length).map fun j => (i, j, runLen (a.drop i) (b.drop j))

/-- Keep the candidate with the strictly largest run length; on ties the
earliest candidate (smallest `i`, then smallest `j`) wins, as in
`find_longest_match`. -/
def pickBest (best c : Nat × Nat × Nat) : Nat × Nat × Nat :=
  if c.2.2 > best.2.2 then c else best

/-- `find_longest_match` over the whole strings (no junk). -/
def bestBlock (a b : List Char) : Nat × Nat × Nat :=
  (matchCands a b).foldl pickBest (0, 0, 0)

/-- Total size of all matching blocks (`sum(size for _, _, size in
get_matching_blocks())`), with explicit fuel; `a.length + b.length` is
always enough fuel since each recursion strictly shrinks the total length. -/
def matchedSizeF : Nat → List Char → List Char → Nat
  | 0, _, _ => 0
  | fuel + 1, a, b =>
    let ijk := bestBlock a b
    if ijk.2.2 = 0 then 0
    else
      ijk.2.2 + matchedSizeF fuel (a.take ijk.1) (b.take ijk.2.1) +
        matchedSizeF fuel (a.drop (ijk.1 + ijk.2.2)) (b.drop (ijk.2.1 + ijk.2.2))

def matchedSize (a b : List Char) : Nat := matchedSizeF (a.length + b.length) a b

/-- `SequenceMatcher.ratio()`: `2*M/T`; CPython returns `1.0` when both
strings are empty. -/
def seqRatio (a b : List Char) : ℚ :=
  if a.length + b.length = 0 then 1
  else 2 * (matchedSize a b : ℚ) / ((a.length : ℚ) + (b.length : ℚ))

/-- `DataMerger.string_similarity` for two string arguments:
`SequenceMatcher(None, a.lower(), b.lower()).ratio()`.  (The non-string
branch returning `0` is handled at call sites by `Option` matching.) -/
def string_similarity (a b : String) : ℚ :=
  seqRatio (a.data.map lowerCh) (b.data.map lowerCh)

/-! ### Facts about the similarity model -/

lemma runLen_self (l : List Char) : runLen l l = l.length := by
  induction l with
  | nil => rfl
  | cons x xs ih => simp [runLen, ih]

lemma runLen_le_left (a b : List Char) : runLen a b ≤ a.length := by
  induction a generalizing b with
  | nil => simp [runLen]
  | cons x xs ih =>
    cases b with
    | nil => simp [runLen]
    | cons y ys =>
      simp only [runLen, List.length_cons]
      split
      · exact Nat.succ_le_succ (ih ys)
      · exact Nat.zero_le _

lemma runLen_le_right (a b : List Char) : runLen a b ≤ b.length := by
  induction a generalizing b with
  | nil => simp [runLen]
  | cons x xs ih =>
    cases b with
    | nil => simp [runLen]
    | cons y ys =>
      simp only [runLen, List.length_cons]
      split
      · exact Nat.succ_le_succ (ih ys)
      · exact Nat.zero_le _

lemma pickBest_k_le_left (best c : Nat × Nat × Nat) : best.2.2 ≤ (pickBest best c).2.2 := by
  unfold pickBest; split <;> omega

lemma pickBest_k_le_right (best c : Nat × Nat × Nat) : c.2.2 ≤ (pickBest best c).2.2 := by
  unfold pickBest; split <;> omega

lemma foldl_pickBest_k_acc (L : List (Nat × Nat × Nat)) :
    ∀ best, best.2.2 ≤ (L.foldl pickBest best).2.2 := by
  induction L with
  | nil => intro best; simp
  | cons h t ih =>
    intro best
    calc best.2.2 ≤ (pickBest best h).2.2 := pickBest_k_le_left best h
    _ ≤ _ := ih (pickBest best h)

lemma foldl_pickBest_k_mem (L : List (Nat × Nat × Nat)) :
    ∀ best c, c ∈ L → c.2.2 ≤ (L.foldl pickBest best).2.2 := by
  induction L with
  | nil => intro _ _ hc; cases hc
  | cons h t ih =>
    intro best c hc
    rcases List.mem_cons.mp hc with rfl | hc
    · calc c.2.2 ≤ (pickBest best c).2.2 := pickBest_k_le_right best c
      _ ≤ _ := foldl_pickBest_k_acc t (pickBest best c)
    · exact ih (pickBest best h) c hc

lemma foldl_pickBest_mem (L : List (Nat × Nat × Nat)) :
    ∀ best, L.foldl pickBest best = best ∨ (L.foldl pickBest best) ∈ L := by
  induction L with
  | nil => intro best; exact Or.inl rfl
  | cons h t ih =>
    intro best
    rcases ih (pickBest best h) with heq | hmem
    · rw [List.foldl_cons, heq]
      unfold pickBest
      split
      · exact Or.inr (List.mem_cons_self _ _)
      · exact Or.inl rfl
    · exact Or.inr (List.mem_cons_of_mem _ hmem)

lemma mem_matchCands_iff (a b : List Char) (c : Nat × Nat × Nat) :
    c ∈ matchCands a b ↔
      ∃ i, i < a.length ∧ ∃ j, j < b.length ∧ c = (i, j, runLen (a.drop i) (b.drop j)) := by
  simp only [matchCands, List.mem_flatMap, List.mem_map, List.mem_range]
  constructor
  · rintro ⟨i, hi, j, hj, rfl⟩; exact ⟨i, hi, j, hj, rfl⟩
  · rintro ⟨i, hi, j, hj, rfl⟩; exact ⟨i, hi, j, hj, rfl⟩

lemma self_mem_matchCands (l : List Char) (h : l ≠ []) :
    (0, 0, l.length) ∈ matchCands l l := by
  rw [mem_matchCands_iff]
  have hlen : 0 < l.length := List.length_pos.mpr h
  exact ⟨0, hlen, 0, hlen, by simp [runLen_self]⟩

lemma bestBlock_self (l : List Char) (h : l ≠ []) : bestBlock l l = (0, 0, l.length) := by
  have hlen : 0 < l.length := List.length_pos.mpr h
  have hge : l.length ≤ (bestBlock l l).2.2 :=
    foldl_pickBest_k_mem _ (0, 0, 0) _ (self_mem_matchCands l h)
  have hcases := foldl_pickBest_mem (matchCands l l) (0, 0, 0)
  rw [show List.foldl pickBest (0, 0, 0) (matchCands l l) = bestBlock l l from rfl] at hcases
  rcases hcases with heq | hmem
  · exfalso
    have : (bestBlock l l).2.2 = 0 := by rw [heq]
    omega
  · rw [mem_matchCands_iff] at hmem
    obtain ⟨i, hi, j, hj, hc⟩ := hmem
    have hkk : (bestBlock l l).2.2 = runLen (l.drop i) (l.drop j) := by rw [hc]
    have hki : runLen (l.drop i) (l.drop j) ≤ l.length - i := by
      have := runLen_le_left (l.drop i) (l.drop j)
      simpa using this
    have hkj : runLen (l.drop i) (l.drop j) ≤ l.length - j := by
      have := runLen_le_right (l.drop i) (l.drop j)
      simpa using this
    have hi0 : i = 0 := by omega
    have hj0 : j = 0 := by omega
    subst hi0; subst hj0
    rw [hc, List.drop_zero, runLen_self]

lemma matchedSizeF_nil (fuel : Nat) : matchedSizeF fuel [] [] = 0 := by
  cases fuel with
  | zero => rfl
  | succ f =>
    have hb : bestBlock ([] : List Char) [] = (0, 0, 0) := by
      rw [bestBlock]
      simp [matchCands]
    simp [matchedSizeF, hb]

lemma matchedSize_self (l : List Char) : matchedSize l l = l.length := by
  rcases eq_or_ne l [] with rfl | h
  · simp [matchedSize, matchedSizeF]
  · have hlen : 0 < l.length := List.length_pos.mpr h
    obtain ⟨f, hf⟩ : ∃ f, l.length + l.length = f + 1 := ⟨l.length + l.length - 1, by omega⟩
    rw [matchedSize, hf]
    simp only [matchedSizeF, bestBlock_self l h]
    have hne : ¬ (l.length = 0) := by omega
    simp only [hne, if_false]
    rw [List.take_zero, matchedSizeF_nil, Nat.zero_add, List.drop_length, matchedSizeF_nil]
    omega

lemma seqRatio_self (l : List Char) (h : l ≠ []) : seqRatio l l = 1 := by
  have hlen : 0 < l.length := List.length_pos.mpr h
  have hne : ¬ (l.length + l.length = 0) := by omega
  rw [seqRatio, if_neg hne, matchedSize_self]
  have hq : (l.length : ℚ) ≠ 0 := Nat.cast_ne_zero.mpr (by omega)
  have : ((l.length : ℚ)) + (l.length : ℚ) = 2 * (l.length : ℚ) := by ring
  rw [this]
  rw [div_eq_one_iff_eq (by positivity)]

lemma string_similarity_self (s : String) (h : s ≠ "") : string_similarity s s = 1 := by
  apply seqRatio_self
  intro hnil
  apply h
  have hdata : s.data = [] := List.map_eq_nil_iff.mp hnil
  cases s
  simp_all

/-! ## Data model

Rows of the two cleaned dataframes handed to `DataMerger.merge_datasets`
(`metacritic_df`, `steam_df`), with the columns the merger reads.  A field
is `none` when the pandas cell is `NaN`/`None`.  `metascore` is numeric
after `DataCleaner.clean_metacritic_data` (`pd.to_numeric`), all other
carried-along fields are kept as strings. -/

structure MCRec where
  title : Option String
  url : Option String
  metascore : Option ℚ
  platform : Option String
  release_date : Option String
  developer : Option String
  publisher : Option String
  genres : Option String
deriving DecidableEq

structure SteamRec where
  title : Option String
  app_url : Option String
  price : Option String
  discount : Option String
  review_summary : Option String
  review_count : Option String
  release_date : Option String
  developer : Option String
  publisher : Option String
  tags : Option String
deriving DecidableEq

/-- `DataMerger.clean_game_title` on a list of characters:
`re.sub(r'^\d+\.\s*', '', title)` followed by `title.strip()`. -/
def cleanTitleChars (cs : List Char) : List Char :=
  match cs.takeWhile isDigitCh, (cs.drop (cs.takeWhile isDigitCh).length) with
  | _ :: _, '.' :: rest => stripList (rest.dropWhile isPySpace)
  | _, _ => stripList cs

/-- `DataMerger.clean_game_title`: non-strings (`NaN`) are returned
unchanged. -/
def clean_game_title : Option String → Option String
  | none => none
  | some s => some ⟨cleanTitleChars s.data⟩

/-- A row of the `metacritic` frame after title cleaning, the
`notna/!= ''` filter and the column renaming in `merge_datasets`. -/
structure MCRow where
  game_title : String
  metacritic_url : Option String
  metascore : Option ℚ
  platform : Option String
  release_date : Option String
  developer : Option String
  publisher : Option String
  genres : Option String
deriving DecidableEq

/-- A row of the `steam` frame after title cleaning, filtering and
renaming. -/
structure SteamRow where
  game_title : String
  steam_url : Option String
  price : Option String
  discount : Option String
  steam_review_summary : Option String
  steam_review_count : Option String
  steam_release_date : Option String
  steam_developer : Option String
  steam_publisher : Option String
  steam_tags : Option String
deriving DecidableEq

/-- Title cleaning + `notna & != ''` filter + renaming for one Metacritic
record. -/
def prepMCRec (r : MCRec) : Option MCRow :=
  match clean_game_title r.title with
  | none => none
  | some t =>
    if t = "" then none
    else some { game_title := t, metacritic_url := r.url, metascore := r.metascore,
                platform := r.platform, release_date := r.release_date,
                developer := r.developer, publisher := r.publisher, genres := r.genres }

/-- Title cleaning + `notna & != ''` filter + renaming for the Metacritic
side of `merge_datasets`. -/
def prepMC (l : List MCRec) : List MCRow := l.filterMap prepMCRec

/-- Title cleaning + `notna & != ''` filter + renaming for one Steam
record. -/
def prepSteamRec (r : SteamRec) : Option SteamRow :=
  match clean_game_title r.title with
  | none => none
  | some t =>
    if t = "" then none
    else some { game_title := t, steam_url := r.app_url, price := r.price,
                discount := r.discount, steam_review_summary := r.review_summary,
                steam_review_count := r.review_count, steam_release_date := r.release_date,
                steam_developer := r.developer, steam_publisher := r.publisher,
                steam_tags := r.tags }

/-- Title cleaning + `notna & != ''` filter + renaming for the Steam side
of `merge_datasets`. -/
def prepSteam (l : List SteamRec) : List SteamRow := l.filterMap prepSteamRec

/-- One row of the merged dataframe.  `steam_review_score` mirrors the
column that `merge_datasets` adds only under the combined-score mask; for
rows outside the mask its cell is `NaN` (`none`). -/
structure MergedRow where
  game_title : String
  metacritic_url : Option String
  metascore : Option ℚ
  platform : Option String
  release_date : Option String
  developer : Option String
  publisher : Option String
  genres : Option String
  steam_url : Option String
  price : Option String
  discount : Option String
  steam_review_summary : Option String
  steam_review_count : Option String
  steam_release_date : Option String
  steam_developer : Option String
  steam_publisher : Option String
  steam_tags : Option String
  match_confidence : ℚ
  is_matched : Bool
  combined_score : Option ℚ
  steam_review_score : Option ℚ
deriving DecidableEq

/-- The pair score computed inside the inner loop of `merge_datasets`:
`title_sim * 0.7 + dev_sim * 0.3` when both developers are present,
non-`NaN` strings different from `'N/A'`, otherwise just the title
similarity. -/
def matchScore (mc : MCRow) (st : SteamRow) : ℚ :=
  let titleSim := string_similarity mc.game_title st.game_title
  match mc.developer, st.steam_developer with
  | some d1, some d2 =>
    if d1 ≠ "N/A" ∧ d2 ≠ "N/A" then
      titleSim * 0.7 + string_similarity d1 d2 * 0.3
    else titleSim
  | _, _ => titleSim

/-- The score value held by the best-match accumulator (`best_score` in
the code, starting at `0`). -/
def accScore : Option (SteamRow × ℚ) → ℚ
  | some p => p.2
  | none => 0

/-- One step of the best-match scan: starting from `best_score = 0`,
replace the current best when `match_score > best_score and
match_score > 0.7`. -/
def stepBest (mc : MCRow) (best : Option (SteamRow × ℚ)) (sg : SteamRow) :
    Option (SteamRow × ℚ) :=
  if matchScore mc sg > accScore best ∧ matchScore mc sg > 0.7 then
    some (sg, matchScore mc sg)
  else best

/-- The inner loop of `merge_datasets`: scan all Steam rows, keep the best
match above the `0.7` threshold (`None` when no row qualifies). -/
def bestSteamMatch (mc : MCRow) (steam : List SteamRow) : Option (SteamRow × ℚ) :=
  steam.foldl (stepBest mc) none

/-- The dict built for a matched pair (`is_matched: True`). -/
def mkMatchedRow (mc : MCRow) (st : SteamRow) (score : ℚ) : MergedRow :=
  { game_title := mc.game_title, metacritic_url := mc.metacritic_url,
    metascore := mc.metascore, platform := mc.platform,
    release_date := mc.release_date, developer := mc.developer,
    publisher := mc.publisher, genres := mc.genres,
    steam_url := st.steam_url, price := st.price, discount := st.discount,
    steam_review_summary := st.steam_review_summary,
    steam_review_count := st.steam_review_count,
    steam_release_date := st.steam_release_date,
    steam_developer := st.steam_developer, steam_publisher := st.steam_publisher,
    steam_tags := st.steam_tags, match_confidence := score, is_matched := true,
    combined_score := none, steam_review_score := none }

/-- The dict built for an unmatched Metacritic game (Steam columns `None`,
`match_confidence: 0`, `is_matched: False`). -/
def mkUnmatchedMCRow (mc : MCRow) : MergedRow :=
  { game_title := mc.game_title, metacritic_url := mc.metacritic_url,
    metascore := mc.metascore, platform := mc.platform,
    release_date := mc.release_date, developer := mc.developer,
    publisher := mc.publisher, genres := mc.genres,
    steam_url := none, price := none, discount := none,
    steam_review_summary := none, steam_review_count := none,
    steam_release_date := none, steam_developer := none, steam_publisher := none,
    steam_tags := none, match_confidence := 0, is_matched := false,
    combined_score := none, steam_review_score := none }

/-- The dict built for an unmatched Steam game (Metacritic columns
`None`). -/
def mkUnmatchedSteamRow (st : SteamRow) : MergedRow :=
  { game_title := st.game_title, metacritic_url := none, metascore := none,
    platform := none, release_date := none, developer := none,
    publisher := none, genres := none,
    steam_url := st.steam_url, price := st.price, discount := st.discount,
    steam_review_summary := st.steam_review_summary,
    steam_review_count := st.steam_review_count,
    steam_release_date := st.steam_release_date,
    steam_developer := st.steam_developer, steam_publisher := st.steam_publisher,
    steam_tags := st.steam_tags, match_confidence := 0, is_matched := false,
    combined_score := none, steam_review_score := none }

/-- All matched rows, in left-iteration order. -/
def matchedRows (mcs : List MCRow) (steam : List SteamRow) : List MergedRow :=
  mcs.filterMap fun mc => (bestSteamMatch mc steam).map fun p => mkMatchedRow mc p.1 p.2

/-- `unmatched_mc = metacritic[~metacritic['game_title'].isin(matched_mc_titles)]`
where `matched_mc_titles = set(merged_df['game_title'])` right after the
matched rows were appended. -/
def unmatchedMCRecs (mcs : List MCRow) (steam : List SteamRow) : List MCRow :=
  mcs.filter fun mc =>
    !(((matchedRows mcs steam).map MergedRow.game_title).contains mc.game_title)

/-- The merged frame after matched rows and unmatched Metacritic rows were
appended. -/
def rowsAfterMC (mcs : List MCRow) (steam : List SteamRow) : List MergedRow :=
  matchedRows mcs steam ++ (unmatchedMCRecs mcs steam).map mkUnmatchedMCRow

/-- `unmatched_steam = steam[~steam['game_title'].isin(matched_steam_titles)]`
where `matched_steam_titles = set(merged_df['game_title'])` is taken over
ALL rows appended so far (matched rows carry the Metacritic title, and the
unmatched Metacritic titles are included too). -/
def unmatchedSteamRecs (mcs : List MCRow) (steam : List SteamRow) : List SteamRow :=
  steam.filter fun sg =>
    !(((rowsAfterMC mcs steam).map MergedRow.game_title).contains sg.game_title)

/-- The merged frame after all three append passes. -/
def allRows (mcs : List MCRow) (steam : List SteamRow) : List MergedRow :=
  rowsAfterMC mcs steam ++ (unmatchedSteamRecs mcs steam).map mkUnmatchedSteamRow

/-- `merged_df['steam_review_summary'].str.extract(r'(\d+)')`: the first
run of digits in the string, if any. -/
def firstDigitRun : List Char → Option (List Char)
  | [] => none
  | c :: cs => if isDigitCh c then some (c :: cs.takeWhile isDigitCh) else firstDigitRun cs

/-- Value of a digit string. -/
def natOfDigits (ds : List Char) : Nat :=
  ds.foldl (fun acc c => acc * 10 + digitVal c) 0

/-- The numeric "steam review score" that `merge_datasets` derives from the
review-summary STRING by digit extraction (`NaN` when the string holds no
digit — which is the case for every one of the nine Steam review labels). -/
def extractReviewScore (s : String) : Option ℚ :=
  (firstDigitRun s.data).map fun ds => (natOfDigits ds : ℚ)

/-- The combined-score mask:
`(is_matched == True) & metascore.notna() & steam_review_summary.notna()`. -/
def maskP (r : MergedRow) : Bool :=
  r.is_matched ∧ r.metascore.isSome ∧ r.steam_review_summary.isSome

/-- The combined-score assignment on one row: rows in the mask get
`steam_review_score` from digit extraction and
`combined_score = metascore * 0.6 + steam_review_score * 0.4` (`NaN`
propagates when the extraction finds no digits); other rows keep `None`. -/
def addCombinedScore (r : MergedRow) : MergedRow :=
  if maskP r then
    let rs := r.steam_review_summary.bind fun s => extractReviewScore s
    { r with steam_review_score := rs,
             combined_score :=
               match r.metascore, rs with
               | some m, some v => some (m * 0.6 + v * 0.4)
               | _, _ => none }
  else r

/-- `DataMerger.merge_datasets`.  Returns `none` when the call raises:
when no matched row was produced, `merged_df` is the fresh empty
`pd.DataFrame()` with no columns, and `set(merged_df['game_title'])`
raises `KeyError: 'game_title'`. -/
def merge_datasets (mcl : List MCRec) (stl : List SteamRec) : Option (List MergedRow) :=
  let mcs := prepMC mcl
  let steam := prepSteam stl
  if matchedRows mcs steam = [] then none
  else
    some (((allRows mcs steam).filter fun r => r.game_title ≠ "").map addCombinedScore)

/-! ## Concrete records used by the claim theorems -/

/-- The left record of the end-to-end scenario of C1. -/
def c1L : MCRec :=
  { title := some "Game A", url := some "mu1", metascore := some 80,
    platform := some "PC", release_date := none, developer := some "Dev1",
    publisher := none, genres := none }

/-- The right record of the end-to-end scenario of C1. -/
def c1R : SteamRec :=
  { title := some "Game A", app_url := some "su1", price := none,
    discount := none, review_summary := some "Very Positive",
    review_count := none, release_date := none, developer := some "Dev1",
    publisher := none, tags := none }

/-- A left record whose cleaned title matches `c4R`'s case-insensitively
but not case-sensitively. -/
def c3L : MCRec :=
  { title := some "GAME A", url := some "mu2", metascore := none,
    platform := none, release_date := none, developer := some "Dev1",
    publisher := none, genres := none }

/-- A right record titled `game a` (lower case). -/
def c3R : SteamRec :=
  { title := some "game a", app_url := some "su2", price := none,
    discount := none, review_summary := none, review_count := none,
    release_date := none, developer := some "Dev1", publisher := none,
    tags := none }

/-! ## C1 -/

set_option maxRecDepth 40000 in
/-- **C1** (code evaluated at the claim's own end-to-end scenario):
linking `{title: "Game A", developer: "Dev1", metascore: 80}` with
`{title: "Game A", developer: "Dev1", review_summary: "Very Positive"}`
produces one matched row with `match_confidence = 1.0` but
`combined_score = None`: `merge_datasets` derives the right-hand score by
extracting digits from the review-summary STRING
(`.str.extract(r'(\d+)')`), which yields nothing for `"Very Positive"`
(or any of the nine labels); the 9-bucket `review_score_approx` computed
by `DataCleaner.clean_steam_data` is never consulted.  The claim's
`combined_score ≈ 82.0` therefore fails on the code. -/
theorem c1_combined_score_is_null :
    ((merge_datasets [c1L] [c1R]).map fun rows =>
        rows.map fun r => (r.is_matched, r.match_confidence, r.combined_score)) =
      some [(true, 1, none)] ∧
    extractReviewScore "Very Positive" = none ∧
    (0.6 : ℚ) * 80 + 0.4 * 85 = 82 := by
  exact ⟨by with_unfolding_all decide, by decide, by norm_num⟩

/-! ## C2 -/

/-- **C2**: an empty left input (or an empty right input) does NOT yield a
frame of unmatched rows: since no matched row is produced, `merged_df` is
still the fresh column-less `pd.DataFrame()` and
`set(merged_df['game_title'])` raises `KeyError: 'game_title'` (modelled
as `none`), for every content of the other side. -/
theorem c2_empty_side_raises :
    (∀ stl : List SteamRec, merge_datasets [] stl = none) ∧
    (∀ mcl : List MCRec, merge_datasets mcl [] = none) := by
  constructor
  · intro stl
    simp [merge_datasets, prepMC, matchedRows]
  · intro mcl
    have hms : ∀ mc : MCRow, bestSteamMatch mc (prepSteam []) = none := by
      intro mc; rfl
    simp [merge_datasets, matchedRows, hms, List.filterMap]

/-! ## C5: threshold and greedy best-match selection -/

lemma bestVal_stepBest (mc : MCRow) (best : Option (SteamRow × ℚ)) (sg : SteamRow) :
    (stepBest mc best sg = best) ∨
      stepBest mc best sg = some (sg, matchScore mc sg) ∧ matchScore mc sg > 0.7 := by
  unfold stepBest
  split
  · next hcond => exact Or.inr ⟨rfl, hcond.2⟩
  · exact Or.inl rfl

/-- Every result of the fold is the accumulator or a scanned pair scoring
above the threshold. -/
lemma foldl_stepBest_charac (mc : MCRow) (l : List SteamRow) :
    ∀ acc sg s, l.foldl (stepBest mc) acc = some (sg, s) →
      acc = some (sg, s) ∨ (sg ∈ l ∧ s = matchScore mc sg ∧ s > 0.7) := by
  induction l with
  | nil => intro acc sg s h; exact Or.inl h
  | cons hd t ih =>
    intro acc sg s h
    rw [List.foldl_cons] at h
    rcases ih (stepBest mc acc hd) sg s h with hacc | ⟨hmem, hs⟩
    · rcases bestVal_stepBest mc acc hd with heq | ⟨heq, hgt⟩
      · exact Or.inl (heq ▸ hacc)
      · rw [heq] at hacc
        obtain ⟨h1, h2⟩ := Prod.mk.inj (Option.some.inj hacc)
        subst h1; subst h2
        exact Or.inr ⟨List.mem_cons_self _ _, rfl, hgt⟩
    · exact Or.inr ⟨List.mem_cons_of_mem _ hmem, hs⟩

/-- If no scanned pair beats the threshold, the accumulator survives. -/
lemma foldl_stepBest_low (mc : MCRow) (l : List SteamRow)
    (hlow : ∀ sg ∈ l, matchScore mc sg ≤ 0.7) :
    ∀ acc, l.foldl (stepBest mc) acc = acc := by
  induction l with
  | nil => intro acc; rfl
  | cons hd t ih =>
    intro acc
    rw [List.foldl_cons]
    have hstep : stepBest mc acc hd = acc := by
      unfold stepBest
      have := hlow hd (List.mem_cons_self _ _)
      split
      · next hcond => exact absurd hcond.2 (by push_neg; exact this)
      · rfl
    rw [hstep]
    exact ih (fun sg hsg => hlow sg (List.mem_cons_of_mem _ hsg)) acc

lemma accScore_stepBest_le (mc : MCRow) (best : Option (SteamRow × ℚ)) (sg : SteamRow) :
    accScore best ≤ accScore (stepBest mc best sg) := by
  unfold stepBest
  split
  · next hcond => exact le_of_lt hcond.1
  · exact le_refl _

lemma foldl_stepBest_accScore_mono (mc : MCRow) (l : List SteamRow) :
    ∀ acc, accScore acc ≤ accScore (l.foldl (stepBest mc) acc) := by
  induction l with
  | nil => intro acc; exact le_refl _
  | cons hd t ih =>
    intro acc
    calc accScore acc ≤ accScore (stepBest mc acc hd) := accScore_stepBest_le mc acc hd
    _ ≤ _ := ih (stepBest mc acc hd)

/-- The final accumulator score dominates the score of every scanned pair
that clears the threshold. -/
lemma foldl_stepBest_accScore_ge (mc : MCRow) (l : List SteamRow) :
    ∀ acc sg, sg ∈ l → matchScore mc sg > 0.7 →
      matchScore mc sg ≤ accScore (l.foldl (stepBest mc) acc) := by
  induction l with
  | nil => intro _ _ h; cases h
  | cons hd t ih =>
    intro acc sg hmem hgt
    rcases List.mem_cons.mp hmem with rfl | hmem
    · have h1 : matchScore mc sg ≤ accScore (stepBest mc acc sg) := by
        unfold stepBest
        split
        · exact le_refl _
        · next hcond =>
          rw [not_and_or] at hcond
          rcases hcond with hc | hc
          · push_neg at hc; exact hc
          · exact absurd hgt hc
      calc matchScore mc sg ≤ accScore (stepBest mc acc sg) := h1
      _ ≤ _ := foldl_stepBest_accScore_mono mc t (stepBest mc acc sg)
    · exact ih (stepBest mc acc hd) sg hmem hgt

/-- **C5**: a pair is accepted as a match only when its score is strictly
above `0.7` (so a pair scoring exactly `0.70` is never the accepted one);
when every pair scores `≤ 0.7` the left record stays unmatched; and when a
pair clears the threshold and carries the maximal score for that left
record, the left record is matched at exactly that score. -/
theorem c5_threshold_strict (mc : MCRow) (steam : List SteamRow) :
    (∀ sg s, bestSteamMatch mc steam = some (sg, s) →
        sg ∈ steam ∧ s = matchScore mc sg ∧ s > 0.7) ∧
    ((∀ sg ∈ steam, matchScore mc sg ≤ 0.7) → bestSteamMatch mc steam = none) ∧
    (∀ sg ∈ steam, matchScore mc sg > 0.7 →
      (∀ sg2 ∈ steam, matchScore mc sg2 ≤ matchScore mc sg) →
      ∃ sgb sb, bestSteamMatch mc steam = some (sgb, sb) ∧ sb = matchScore mc sg) := by
  refine ⟨?_, ?_, ?_⟩
  · intro sg s h
    rcases foldl_stepBest_charac mc steam none sg s h with hacc | ⟨hmem, hs, hgt⟩
    · cases hacc
    · exact ⟨hmem, hs, hgt⟩
  · intro hlow
    exact foldl_stepBest_low mc steam hlow none
  · intro sg hmem hgt hmax
    have hge : matchScore mc sg ≤ accScore (bestSteamMatch mc steam) :=
      foldl_stepBest_accScore_ge mc steam none sg hmem hgt
    have hpos : accScore (bestSteamMatch mc steam) > 0 :=
      lt_of_lt_of_le (lt_trans (by norm_num) hgt) hge
    obtain ⟨sgb, sb, hbs⟩ : ∃ sgb sb, bestSteamMatch mc steam = some (sgb, sb) := by
      cases hb : bestSteamMatch mc steam with
      | none => rw [hb] at hpos; simp [accScore] at hpos
      | some p => exact ⟨p.1, p.2, rfl⟩
    refine ⟨sgb, sb, hbs, ?_⟩
    rcases foldl_stepBest_charac mc steam none sgb sb hbs with hacc | ⟨hmem2, hs2, _⟩
    · cases hacc
    · have hle : sb ≤ matchScore mc sg := hs2 ▸ hmax sgb hmem2
      have hge2 : matchScore mc sg ≤ sb := by
        have h := hge
        rw [hbs] at h
        exact h
      exact le_antisymm hle hge2

/-- A concrete matched-pair scenario with score exactly `0.7`:
equal titles (`title_sim = 1`) but fully dissimilar developers
(`dev_sim = 0`), so `1 * 0.7 + 0 * 0.3 = 0.7`. -/
def wmc5 : MCRow :=
  { game_title := "xyz", metacritic_url := none, metascore := none,
    platform := none, release_date := none, developer := some "AAAA",
    publisher := none, genres := none }

def wsg5 : SteamRow :=
  { game_title := "xyz", steam_url := none, price := none, discount := none,
    steam_review_summary := none, steam_review_count := none,
    steam_release_date := none, steam_developer := some "BBBB",
    steam_publisher := none, steam_tags := none }

set_option maxRecDepth 40000 in
/-- Witness for C5: a pair scoring exactly `0.70` is not matched. -/
theorem c5_threshold_strict_witness : bestSteamMatch wmc5 [wsg5] = none := by
  apply (c5_threshold_strict wmc5 [wsg5]).2.1
  intro sg hsg
  rw [List.mem_singleton] at hsg
  subst hsg
  with_unfolding_all decide

/-! ## C9: similarity is reflexive and case-insensitive -/

/-- **C9**: `string_similarity x x = 1` for every non-empty string `x`,
and the comparison lower-cases both sides first, so
`string_similarity "Elden Ring" "elden ring" = 1`. -/
theorem c9_similarity_reflexive :
    (∀ s : String, s ≠ "" → string_similarity s s = 1) ∧
    string_similarity "Elden Ring" "elden ring" = 1 := by
  refine ⟨string_similarity_self, ?_⟩
  have h : "Elden Ring".data.map lowerCh = "elden ring".data.map lowerCh := by decide
  rw [string_similarity, h]
  exact seqRatio_self _ (by decide)

/-- Witness for C9 at a concrete non-empty string. -/
theorem c9_similarity_reflexive_witness : string_similarity "Game A" "Game A" = 1 :=
  c9_similarity_reflexive.1 "Game A" (by decide)

/-! ## C3 and C4: reconciliation structure -/

set_option maxRecDepth 40000 in
/-- **C3 counterexample**: left `{title: "GAME A", developer: "Dev1"}` and
right `{title: "game a", developer: "Dev1"}` match (similarity is
case-insensitive), yet the output has 2 rows built from 1 matched pair and
0 unmatched records: the single right record appears BOTH inside the
matched row and as an unmatched-right row (its case-sensitive title
`"game a"` is not among the emitted `game_title`s).  So
`|output| ≠ |matchedPairs| + |unmatchedLeft| + |unmatchedRight|`
(`2 ≠ 1 + 0 + 0`) and the right record appears in two output rows, not
exactly one. -/
theorem c3_counterexample :
    ((merge_datasets [c3L] [c3R]).map fun rows =>
        (rows.length, rows.countP (fun r => r.is_matched),
         rows.countP (fun r => r.steam_url == some "su2"))) =
      some (2, 1, 2) := by
  with_unfolding_all decide

/-- The prepped (cleaned/renamed) form of `c3L`. -/
def c4mc : MCRow :=
  { game_title := "GAME A", metacritic_url := some "mu2", metascore := none,
    platform := none, release_date := none, developer := some "Dev1",
    publisher := none, genres := none }

/-- The prepped (cleaned/renamed) form of `c3R`. -/
def c4sg : SteamRow :=
  { game_title := "game a", steam_url := some "su2", price := none,
    discount := none, steam_review_summary := none, steam_review_count := none,
    steam_release_date := none, steam_developer := some "Dev1",
    steam_publisher := none, steam_tags := none }

set_option maxRecDepth 40000 in
/-- **C4 counterexample**: in the run on `[c3L]`, `[c3R]`, the right
record `c4sg` IS the right-hand side of the produced matched row (it is
the selected best match), so by the claim it must not be emitted as an
unmatched-right row — yet the output contains an unmatched row carrying
its data: the membership test is against the emitted `game_title` values
(the LEFT title `"GAME A"` for a matched row), not against the right-hand
record's title. -/
theorem c4_counterexample :
    prepMC [c3L] = [c4mc] ∧ prepSteam [c3R] = [c4sg] ∧
    bestSteamMatch c4mc [c4sg] = some (c4sg, 1) ∧
    ((merge_datasets [c3L] [c3R]).map fun rows =>
        rows.countP fun r => !r.is_matched && r.steam_url == some "su2") =
      some 1 := by
  refine ⟨by decide, by decide, by with_unfolding_all decide, by with_unfolding_all decide⟩

/-! ### Structural lemmas about the reconciliation passes -/

lemma prepMCRec_title_ne (r : MCRec) (mc : MCRow) (h : prepMCRec r = some mc) :
    mc.game_title ≠ "" := by
  unfold prepMCRec at h
  split at h
  · cases h
  · split at h
    · cases h
    · next hne => cases h; exact hne

lemma prepSteamRec_title_ne (r : SteamRec) (sg : SteamRow) (h : prepSteamRec r = some sg) :
    sg.game_title ≠ "" := by
  unfold prepSteamRec at h
  split at h
  · cases h
  · split at h
    · cases h
    · next hne => cases h; exact hne

lemma prepMC_title_ne (l : List MCRec) : ∀ mc ∈ prepMC l, mc.game_title ≠ "" := by
  intro mc hmc
  obtain ⟨r, _, hr⟩ := List.mem_filterMap.mp hmc
  exact prepMCRec_title_ne r mc hr

lemma prepSteam_title_ne (l : List SteamRec) : ∀ sg ∈ prepSteam l, sg.game_title ≠ "" := by
  intro sg hsg
  obtain ⟨r, _, hr⟩ := List.mem_filterMap.mp hsg
  exact prepSteamRec_title_ne r sg hr

lemma mem_matchedRows_iff (mcs : List MCRow) (steam : List SteamRow) (r : MergedRow) :
    r ∈ matchedRows mcs steam ↔
      ∃ mc ∈ mcs, ∃ p : SteamRow × ℚ,
        bestSteamMatch mc steam = some p ∧ r = mkMatchedRow mc p.1 p.2 := by
  simp only [matchedRows, List.mem_filterMap, Option.map_eq_some']
  constructor
  · rintro ⟨mc, hmc, p, hp, rfl⟩
    exact ⟨mc, hmc, p, hp, rfl⟩
  · rintro ⟨mc, hmc, p, hp, rfl⟩
    exact ⟨mc, hmc, p, hp, rfl⟩

/-- The `game_title` values present after the first two append passes are
exactly the titles of the (prepped) left records: matched rows carry their
left title, and every other left record contributes an unmatched-left
row. -/
lemma title_mem_rowsAfterMC (mcs : List MCRow) (steam : List SteamRow) (t : String) :
    t ∈ (rowsAfterMC mcs steam).map MergedRow.game_title ↔
      t ∈ mcs.map MCRow.game_title := by
  constructor
  · intro h
    rw [rowsAfterMC, List.map_append, List.mem_append] at h
    rcases h with h | h
    · obtain ⟨r, hr, rfl⟩ := List.mem_map.mp h
      obtain ⟨mc, hmc, p, _, rfl⟩ := (mem_matchedRows_iff mcs steam r).mp hr
      exact List.mem_map.mpr ⟨mc, hmc, rfl⟩
    · rw [List.map_map] at h
      obtain ⟨mc, hmc, rfl⟩ := List.mem_map.mp h
      exact List.mem_map.mpr ⟨mc, List.mem_of_mem_filter hmc, rfl⟩
  · intro h
    obtain ⟨mc, hmc, rfl⟩ := List.mem_map.mp h
    rw [rowsAfterMC, List.map_append, List.mem_append]
    by_cases hin :
        ((matchedRows mcs steam).map MergedRow.game_title).contains mc.game_title
    · exact Or.inl (List.elem_iff.mp hin)
    · refine Or.inr ?_
      rw [List.map_map]
      refine List.mem_map.mpr ⟨mc, ?_, rfl⟩
      rw [unmatchedMCRecs, List.mem_filter]
      refine ⟨hmc, ?_⟩
      rw [Bool.not_eq_true] at hin
      rw [hin]
      rfl

/-- **C4 (amended)**: a right record is emitted as an unmatched-right row
iff its cleaned title differs (case-sensitively) from the cleaned title of
EVERY prepped left record — the membership test runs over the
`game_title` column of all rows emitted so far, which holds the left-side
titles (matched rows carry the left title), not the titles of the
right-hand records of matched rows. -/
theorem c4_unmatched_right_test (mcs : List MCRow) (steam : List SteamRow) :
    unmatchedSteamRecs mcs steam =
      steam.filter fun sg => !((mcs.map MCRow.game_title).contains sg.game_title) := by
  rw [unmatchedSteamRecs]
  apply List.filter_congr
  intro sg _
  have h := title_mem_rowsAfterMC mcs steam sg.game_title
  by_cases hin : sg.game_title ∈ mcs.map MCRow.game_title
  · have h1 : ((rowsAfterMC mcs steam).map MergedRow.game_title).contains sg.game_title :=
      List.elem_iff.mpr (h.mpr hin)
    have h2 : ((mcs.map MCRow.game_title)).contains sg.game_title :=
      List.elem_iff.mpr hin
    rw [h1, h2]
  · have h1 : ¬ ((rowsAfterMC mcs steam).map MergedRow.game_title).contains sg.game_title := by
      rw [List.elem_iff]
      exact fun hc => hin (h.mp hc)
    have h2 : ¬ ((mcs.map MCRow.game_title)).contains sg.game_title := by
      rw [List.elem_iff]
      exact hin
    rw [Bool.not_eq_true] at h1 h2
    rw [h1, h2]

lemma addCombinedScore_title (r : MergedRow) :
    (addCombinedScore r).game_title = r.game_title := by
  unfold addCombinedScore
  split <;> rfl

/-- In a list whose key projection is duplicate-free, counting the
elements that share `a`'s key and satisfy `p` gives `1` or `0` according
to `p a`. -/
lemma countP_key_unique {α : Type} (f : α → String) (p : α → Bool) :
    ∀ (l : List α), (l.map f).Nodup → ∀ a ∈ l,
      l.countP (fun x => (f x == f a) && p x) = if p a then 1 else 0 := by
  intro l
  induction l with
  | nil => intro _ a ha; cases ha
  | cons hd tl ih =>
    intro hnd a ha
    rw [List.map_cons, List.nodup_cons] at hnd
    obtain ⟨hhd, htl⟩ := hnd
    rw [List.countP_cons]
    rcases List.mem_cons.mp ha with rfl | hmem
    · have hz : tl.countP (fun x => (f x == f a) && p x) = 0 := by
        apply List.countP_eq_zero.mpr
        intro x hx
        simp only [Bool.and_eq_true, beq_iff_eq, not_and]
        intro hfx
        exact absurd (hfx ▸ List.mem_map_of_mem f hx) hhd
      rw [hz]
      simp
    · have hne : f hd ≠ f a := fun hfa => hhd (hfa ▸ List.mem_map_of_mem f hmem)
      rw [ih htl a hmem]
      simp [hne]

lemma countP_matchedRows_titles (steam : List SteamRow) (t : String) :
    ∀ mcs : List MCRow,
      (matchedRows mcs steam).countP (fun r => r.game_title == t) =
        mcs.countP (fun mc => (mc.game_title == t) && (bestSteamMatch mc steam).isSome) := by
  intro mcs
  induction mcs with
  | nil => rfl
  | cons hd tl ih =>
    rw [matchedRows, List.filterMap_cons, List.countP_cons]
    cases hb : bestSteamMatch hd steam with
    | none =>
      rw [Option.map_none']
      rw [show List.filterMap
          (fun mc => (bestSteamMatch mc steam).map fun p => mkMatchedRow mc p.1 p.2) tl =
          matchedRows tl steam from rfl, ih]
      simp [hb]
    | some p =>
      rw [Option.map_some', List.countP_cons]
      rw [show List.filterMap
          (fun mc => (bestSteamMatch mc steam).map fun p => mkMatchedRow mc p.1 p.2) tl =
          matchedRows tl steam from rfl, ih]
      have hmk : (mkMatchedRow hd p.1 p.2).game_title = hd.game_title := rfl
      simp [hb, hmk]

lemma countP_uMCRows (mcs : List MCRow) (steam : List SteamRow) (t : String) :
    ((unmatchedMCRecs mcs steam).map mkUnmatchedMCRow).countP (fun r => r.game_title == t) =
      mcs.countP (fun mc => (mc.game_title == t) &&
        !(((matchedRows mcs steam).map MergedRow.game_title).contains mc.game_title)) := by
  rw [List.countP_map, unmatchedMCRecs, List.countP_filter]
  rfl

lemma countP_uSteamRows_zero (mcs : List MCRow) (steam : List SteamRow)
    (mc0 : MCRow) (hmc0 : mc0 ∈ mcs) :
    ((unmatchedSteamRecs mcs steam).map mkUnmatchedSteamRow).countP
      (fun r => r.game_title == mc0.game_title) = 0 := by
  rw [List.countP_map]
  apply List.countP_eq_zero.mpr
  intro sg hsg
  rw [unmatchedSteamRecs, List.mem_filter] at hsg
  obtain ⟨_, hsg2⟩ := hsg
  intro hbeq
  have heq : sg.game_title = mc0.game_title := by
    have : (mkUnmatchedSteamRow sg).game_title = sg.game_title := rfl
    rw [Function.comp_apply, this, beq_iff_eq] at hbeq
    exact hbeq
  have hmem : sg.game_title ∈ (rowsAfterMC mcs steam).map MergedRow.game_title :=
    (title_mem_rowsAfterMC mcs steam _).mpr (heq ▸ List.mem_map_of_mem _ hmc0)
  have hcontains : ((rowsAfterMC mcs steam).map MergedRow.game_title).contains
      sg.game_title = true := List.elem_iff.mpr hmem
  rw [hcontains] at hsg2
  exact absurd hsg2 (by decide)

lemma allRows_title_ne (mcl : List MCRec) (stl : List SteamRec) :
    ∀ r ∈ allRows (prepMC mcl) (prepSteam stl), r.game_title ≠ "" := by
  intro r hr
  rw [allRows, rowsAfterMC, List.append_assoc, List.mem_append, List.mem_append] at hr
  rcases hr with hr | hr | hr
  · obtain ⟨mc, hmc, p, _, rfl⟩ := (mem_matchedRows_iff _ _ r).mp hr
    exact prepMC_title_ne mcl mc hmc
  · obtain ⟨mc, hmc, rfl⟩ := List.mem_map.mp hr
    exact prepMC_title_ne mcl mc (List.mem_of_mem_filter hmc)
  · obtain ⟨sg, hsg, rfl⟩ := List.mem_map.mp hr
    exact prepSteam_title_ne stl sg (List.mem_of_mem_filter hsg)

/-- **C3 (amended)**: when `merge_datasets` returns (at least one matched
row was produced), the output size is the number of matched rows plus the
number of left records whose cleaned title is not a matched-row title plus
the number of right records whose cleaned title is not among the emitted
`game_title` values; and, provided the cleaned left titles are pairwise
distinct, every prepped left record's title heads exactly one output row.
(Right records need not appear exactly once — see the counterexample.) -/
theorem c3_reconciliation (mcl : List MCRec) (stl : List SteamRec)
    (rows : List MergedRow) (mc0 : MCRow)
    (h : merge_datasets mcl stl = some rows)
    (hnd : ((prepMC mcl).map MCRow.game_title).Nodup)
    (hmc0 : mc0 ∈ prepMC mcl) :
    rows.length =
      (matchedRows (prepMC mcl) (prepSteam stl)).length +
        (unmatchedMCRecs (prepMC mcl) (prepSteam stl)).length +
        (unmatchedSteamRecs (prepMC mcl) (prepSteam stl)).length ∧
    rows.countP (fun r => r.game_title == mc0.game_title) = 1 := by
  rw [merge_datasets] at h
  split at h
  · cases h
  · have hrows : rows =
        ((allRows (prepMC mcl) (prepSteam stl)).filter fun r =>
          r.game_title ≠ "").map addCombinedScore := (Option.some.inj h).symm
    have hfilter : (allRows (prepMC mcl) (prepSteam stl)).filter
        (fun r => decide (r.game_title ≠ "")) = allRows (prepMC mcl) (prepSteam stl) := by
      apply List.filter_eq_self.mpr
      intro r hr
      exact decide_eq_true (allRows_title_ne mcl stl r hr)
    constructor
    · rw [hrows, List.length_map, hfilter, allRows, rowsAfterMC]
      simp only [List.length_append, List.length_map]
    · rw [hrows, List.countP_map, hfilter]
      have hfun : ((fun r => r.game_title == mc0.game_title) ∘ addCombinedScore) =
          (fun r : MergedRow => r.game_title == mc0.game_title) := by
        funext r
        simp [Function.comp_apply, addCombinedScore_title]
      rw [hfun, allRows, rowsAfterMC, List.append_assoc, List.countP_append,
        List.countP_append]
      rw [countP_matchedRows_titles, countP_uMCRows, countP_uSteamRows_zero _ _ mc0 hmc0]
      cases hb : bestSteamMatch mc0 (prepSteam stl) with
      | some p =>
        have h1 : (prepMC mcl).countP (fun mc => (mc.game_title == mc0.game_title) &&
            (bestSteamMatch mc (prepSteam stl)).isSome) = 1 := by
          rw [countP_key_unique MCRow.game_title _ _ hnd mc0 hmc0, hb]
          simp
        have h2 : (prepMC mcl).countP (fun mc => (mc.game_title == mc0.game_title) &&
            !(((matchedRows (prepMC mcl) (prepSteam stl)).map
                MergedRow.game_title).contains mc.game_title)) = 0 := by
          rw [countP_key_unique MCRow.game_title _ _ hnd mc0 hmc0]
          have hmem : mc0.game_title ∈
              (matchedRows (prepMC mcl) (prepSteam stl)).map MergedRow.game_title := by
            refine List.mem_map.mpr ⟨mkMatchedRow mc0 p.1 p.2, ?_, rfl⟩
            exact (mem_matchedRows_iff _ _ _).mpr ⟨mc0, hmc0, p, hb, rfl⟩
          rw [if_neg (by
            rw [show ((matchedRows (prepMC mcl) (prepSteam stl)).map
                MergedRow.game_title).contains mc0.game_title = true from
                List.elem_iff.mpr hmem]
            decide)]
        rw [h1, h2]
      | none =>
        have h1 : (prepMC mcl).countP (fun mc => (mc.game_title == mc0.game_title) &&
            (bestSteamMatch mc (prepSteam stl)).isSome) = 0 := by
          rw [countP_key_unique MCRow.game_title _ _ hnd mc0 hmc0, hb]
          simp
        have h2 : (prepMC mcl).countP (fun mc => (mc.game_title == mc0.game_title) &&
            !(((matchedRows (prepMC mcl) (prepSteam stl)).map
                MergedRow.game_title).contains mc.game_title)) = 1 := by
          rw [countP_key_unique MCRow.game_title _ _ hnd mc0 hmc0]
          have hnmem : mc0.game_title ∉
              (matchedRows (prepMC mcl) (prepSteam stl)).map MergedRow.game_title := by
            intro hmem
            obtain ⟨r, hr, hrt⟩ := List.mem_map.mp hmem
            obtain ⟨mc', hmc', p', hb', rfl⟩ := (mem_matchedRows_iff _ _ r).mp hr
            have : mc' = mc0 :=
              List.inj_on_of_nodup_map hnd hmc' hmc0 hrt
            rw [this] at hb'
            rw [hb'] at hb
            cases hb
          have hcf : ((matchedRows (prepMC mcl) (prepSteam stl)).map
              MergedRow.game_title).contains mc0.game_title = false := by
            cases hcv : ((matchedRows (prepMC mcl) (prepSteam stl)).map
                MergedRow.game_title).contains mc0.game_title with
            | false => rfl
            | true => exact absurd (List.elem_iff.mp hcv) hnmem
          rw [if_pos (by rw [hcf]; decide)]
        rw [h1, h2]

/-- The output rows of the C3 witness run. -/
def c3wRows : List MergedRow := (merge_datasets [c1L] [c1R]).getD []

/-- The prepped form of `c1L`. -/
def c3wMC : MCRow :=
  { game_title := "Game A", metacritic_url := some "mu1", metascore := some 80,
    platform := some "PC", release_date := none, developer := some "Dev1",
    publisher := none, genres := none }

set_option maxRecDepth 40000 in
/-- Witness for the amended C3 at a concrete one-pair run. -/
theorem c3_reconciliation_witness :
    c3wRows.length =
      (matchedRows (prepMC [c1L]) (prepSteam [c1R])).length +
        (unmatchedMCRecs (prepMC [c1L]) (prepSteam [c1R])).length +
        (unmatchedSteamRecs (prepMC [c1L]) (prepSteam [c1R])).length ∧
    c3wRows.countP (fun r => r.game_title == c3wMC.game_title) = 1 :=
  c3_reconciliation [c1L] [c1R] c3wRows c3wMC
    (by with_unfolding_all decide) (by with_unfolding_all decide)
    (by with_unfolding_all decide)

/-! ## C6: `DataCleaner._extract_price` -/

/-- The first maximal run of characters satisfying `p`
(`re.search(r'[...]+', s)`). -/
def firstRun (p : Char → Bool) : List Char → Option (List Char)
  | [] => none
  | c :: cs => if p c then some (c :: cs.takeWhile p) else firstRun p cs

/-- Character class of `re.search(r'[\d.,]+', ...)`. -/
def isPriceCh (c : Char) : Bool := isDigitCh c ∨ c = '.' ∨ c = ','

/-- Python `float()` on a string made of digits and periods (what remains
after `re.sub(r'[^\d.]', '', ...)`): defined iff there is at least one
digit and at most one period. -/
def floatOfCleanDigits (ds : List Char) : Option ℚ :=
  if ds.count '.' ≤ 1 ∧ ds.any isDigitCh then
    some ((natOfDigits (ds.takeWhile fun c => c ≠ '.') : ℚ) +
      (natOfDigits ((ds.dropWhile fun c => c ≠ '.').drop 1) : ℚ) /
        ((10 ^ ((ds.dropWhile fun c => c ≠ '.').drop 1).length : Nat) : ℚ))
  else none

/-- `DataCleaner._extract_price`: non-strings map to `None`; after
stripping, the placeholder tokens `'N/A'`, `'Free'`, `'Free to Play'`,
`''` map to `0.0`; otherwise the first `[\d.,]+` run is taken, commas are
removed and the result parsed as a float (`None` on failure or when no run
exists). -/
def extract_price : Option String → Option ℚ
  | none => none
  | some s =>
    let t := stripList s.data
    if t = "N/A".data ∨ t = "Free".data ∨ t = "Free to Play".data ∨ t = [] then some 0
    else
      match firstRun isPriceCh t with
      | some run => floatOfCleanDigits (run.filter fun c => isDigitCh c ∨ c = '.')
      | none => none

/-- **C6 counterexample**: `_extract_price("N/A")` is `0.0`, not `null` —
the token `'N/A'` sits in the same list as `'Free'` in the code. -/
theorem c6_counterexample : extract_price (some "N/A") = some 0 ∧ extract_price (some "N/A") ≠ none := by
  constructor
  · with_unfolding_all decide
  · with_unfolding_all decide

set_option maxRecDepth 40000 in
/-- **C6 (amended)**: `_extract_price` maps the placeholder tokens
`"N/A"`, `"Free"`, `"Free to Play"` and `""` all to `0.0`; `"$19.99"`
parses to `19.99` and the thousands separator in `"$1,299"` is stripped;
for any other string the first `[\d.,]+` run is
extracted, commas are stripped and the rest parsed as a float, yielding
`None` when that fails (`"abc"` has no numeric run; `"$1.2.3"`'s run has
two periods) and `None` for a non-string cell. -/
theorem c6_price_extraction :
    extract_price (some "Free") = some 0 ∧
    extract_price (some "Free to Play") = some 0 ∧
    extract_price (some "N/A") = some 0 ∧
    extract_price (some "") = some 0 ∧
    extract_price (some "$19.99") = some (19.99 : ℚ) ∧
    extract_price (some "$1,299") = some (1299 : ℚ) ∧
    extract_price (some "  Free  ") = some 0 ∧
    extract_price (some "abc") = none ∧
    extract_price (some "$1.2.3") = none ∧
    extract_price none = none := by
  refine ⟨by with_unfolding_all decide, by with_unfolding_all decide,
    by with_unfolding_all decide, by with_unfolding_all decide,
    by with_unfolding_all decide, by with_unfolding_all decide,
    by with_unfolding_all decide, by with_unfolding_all decide,
    by with_unfolding_all decide, rfl⟩

/-! ## C10: output column set and `validate_data` -/

/-- The columns of the merged dataframe, in insertion order: the keys of
the row dicts built in `merge_datasets`, then `combined_score` (the
column is created unconditionally by `merged_df['combined_score'] =
None`). -/
def mergedColumnsBase : List String :=
  ["game_title", "metacritic_url", "metascore", "platform", "release_date",
   "developer", "publisher", "genres", "steam_url", "price", "discount",
   "steam_review_summary", "steam_review_count", "steam_release_date",
   "steam_developer", "steam_publisher", "steam_tags", "match_confidence",
   "is_matched", "combined_score"]

/-- The full column list of a frame returned by `merge_datasets`:
`steam_review_score` exists only when the combined-score mask is
non-empty (`if mask.any():`). -/
def mergeOutputColumns (rows : List MergedRow) : List String :=
  mergedColumnsBase ++ (if rows.any maskP then ["steam_review_score"] else [])

/-- The `required_columns` list checked by `validate_data` in
`src/dagster_pipeline/ops.py`. -/
def requiredColumns : List String :=
  ["mc_title", "mc_metascore", "mc_genres", "mc_developer",
   "steam_title", "steam_price_numeric", "steam_tags"]

/-- The decision logic of `validate_data` on a frame read back from the
saved CSV: row-count check, matched-count check, then the
required-columns check (the file-existence check is I/O and passes for a
file just written by `save_merged_data`). -/
def validate_data (rowCount matchedCount minRows minMatched : Nat)
    (cols : List String) : Bool :=
  if rowCount < minRows then false
  else if matchedCount < minMatched then false
  else if !((requiredColumns.filter fun c => !(cols.contains c)).isEmpty) then false
  else true

lemma validate_data_false_of_missing (rc mc mr mm : Nat) (cols : List String)
    (h : cols.contains "mc_title" = false) :
    validate_data rc mc mr mm cols = false := by
  have hp : "mc_title" ∈ requiredColumns.filter fun c => !(cols.contains c) := by
    rw [List.mem_filter]
    exact ⟨by decide, by rw [h]; rfl⟩
  have hne : (requiredColumns.filter fun c => !(cols.contains c)) ≠ [] :=
    List.ne_nil_of_mem hp
  unfold validate_data
  split_ifs with h1 h2 h3
  · rfl
  · rfl
  · rfl
  · exfalso
    apply h3
    cases hv : (requiredColumns.filter fun c => !(cols.contains c)).isEmpty with
    | false => rfl
    | true => exact absurd (List.isEmpty_iff.mp hv) hne

lemma mergeOutputColumns_cases (rows : List MergedRow) :
    mergeOutputColumns rows = mergedColumnsBase ∨
      mergeOutputColumns rows = mergedColumnsBase ++ ["steam_review_score"] := by
  unfold mergeOutputColumns
  cases rows.any maskP
  · left; simp
  · right; simp

/-- **C10**: the column set of every frame produced by `merge_datasets`
is the fixed 20-column list, extended by `steam_review_score` exactly
when some matched row has both a metascore and a review summary; it never
contains `mc_title`, `mc_metascore`, `mc_genres`, `mc_developer`,
`steam_title` or `steam_price_numeric`; consequently `validate_data`
returns `False` on any serialized `merge_datasets` output, whatever the
configured minimums, because the required-columns check cannot pass. -/
theorem c10_validation (mcl : List MCRec) (stl : List SteamRec)
    (rows : List MergedRow) (rc mc mr mm : Nat)
    (_h : merge_datasets mcl stl = some rows) :
    (mergeOutputColumns rows = mergedColumnsBase ∨
      mergeOutputColumns rows = mergedColumnsBase ++ ["steam_review_score"]) ∧
    "mc_title" ∉ mergeOutputColumns rows ∧
    "mc_metascore" ∉ mergeOutputColumns rows ∧
    "mc_genres" ∉ mergeOutputColumns rows ∧
    "mc_developer" ∉ mergeOutputColumns rows ∧
    "steam_title" ∉ mergeOutputColumns rows ∧
    "steam_price_numeric" ∉ mergeOutputColumns rows ∧
    validate_data rc mc mr mm (mergeOutputColumns rows) = false := by
  rcases mergeOutputColumns_cases rows with hc | hc <;>
    rw [hc] <;>
    exact ⟨by simp [hc], by decide, by decide, by decide, by decide, by decide,
      by decide, validate_data_false_of_missing rc mc mr mm _ (by decide)⟩

/-- The output rows of the C10 witness run. -/
def c10Rows : List MergedRow := (merge_datasets [c1L] [c1R]).getD []

set_option maxRecDepth 40000 in
/-- Witness for C10 at a concrete run (defaults `min_rows = 5`,
`min_matched = 3`). -/
theorem c10_validation_witness :
    (mergeOutputColumns c10Rows = mergedColumnsBase ∨
      mergeOutputColumns c10Rows = mergedColumnsBase ++ ["steam_review_score"]) ∧
    "mc_title" ∉ mergeOutputColumns c10Rows ∧
    "mc_metascore" ∉ mergeOutputColumns c10Rows ∧
    "mc_genres" ∉ mergeOutputColumns c10Rows ∧
    "mc_developer" ∉ mergeOutputColumns c10Rows ∧
    "steam_title" ∉ mergeOutputColumns c10Rows ∧
    "steam_price_numeric" ∉ mergeOutputColumns c10Rows ∧
    validate_data 1 1 5 3 (mergeOutputColumns c10Rows) = false :=
  c10_validation [c1L] [c1R] c10Rows 1 1 5 3 (by with_unfolding_all decide)

/-! ## `DataCleaner._standardize_date`

`datetime.strptime` is tried for the twelve formats in the code's order;
CPython's `_strptime` compiles each format to a regex (whitespace in the
format becomes `\s+`, `%d` becomes `(3[01]|[12]\d|0[1-9]|[1-9])`, `%m`
becomes `(1[0-2]|0[1-9]|[1-9])`, `%Y` becomes `\d\d\d\d`, `%b`/`%B`
become the case-insensitive alternation of month names), requires the
whole string to be consumed, and raises `ValueError` for a calendar-invalid
day-of-month, falling through to the next format.  Backtracking matters
only inside the day/month alternations (tried in regex order); a `\s+`
is always followed by a token that cannot consume whitespace, so greedy
maximal munch is exact. -/

/-- Lower-cased `%b` month abbreviations, in `calendar` order (all the
same length, so the longest-first sort of `_strptime` keeps this
order). -/
def monthAbbrs : List (List Char × Nat) :=
  [("jan".data, 1), ("feb".data, 2), ("mar".data, 3), ("apr".data, 4),
   ("may".data, 5), ("jun".data, 6), ("jul".data, 7), ("aug".data, 8),
   ("sep".data, 9), ("oct".data, 10), ("nov".data, 11), ("dec".data, 12)]

/-- Lower-cased `%B` month names, longest first as in `_strptime`'s regex
construction (no name is a prefix of another, so the order cannot change
the outcome). -/
def monthFulls : List (List Char × Nat) :=
  [("september".data, 9), ("february".data, 2), ("november".data, 11),
   ("december".data, 12), ("january".data, 1), ("october".data, 10),
   ("august".data, 8), ("march".data, 3), ("april".data, 4),
   ("june".data, 6), ("july".data, 7), ("may".data, 5)]

/-- Match one month name from the table at the head of `cs`
(case-insensitive). -/
def pMonth (tbl : List (List Char × Nat)) (cs : List Char) : Option (Nat × List Char) :=
  tbl.findSome? fun e =>
    if (cs.take e.1.length).map lowerCh = e.1 then some (e.2, cs.drop e.1.length)
    else none

/-- `\s+`: at least one whitespace character, matched greedily. -/
def pWS : List Char → Option (List Char)
  | [] => none
  | c :: cs => if isPySpace c then some (cs.dropWhile isPySpace) else none

/-- An exact literal character. -/
def pLit (x : Char) : List Char → Option (List Char)
  | [] => none
  | c :: cs => if c = x then some cs else none

/-- The alternatives of `%d`'s regex `(3[01]|[12]\d|0[1-9]|[1-9])`, in
regex order, each with the remaining input. -/
def dayCands : List Char → List (Nat × List Char)
  | [] => []
  | c1 :: rest =>
    (match rest with
     | [] => []
     | c2 :: rest2 =>
       (if c1 = '3' ∧ (c2 = '0' ∨ c2 = '1') then [(30 + digitVal c2, rest2)] else []) ++
       (if (c1 = '1' ∨ c1 = '2') ∧ isDigitCh c2 then
         [(10 * digitVal c1 + digitVal c2, rest2)] else []) ++
       (if c1 = '0' ∧ '1' ≤ c2 ∧ c2 ≤ '9' then [(digitVal c2, rest2)] else [])) ++
    (if '1' ≤ c1 ∧ c1 ≤ '9' then [(digitVal c1, rest)] else [])

/-- The alternatives of `%m`'s regex `(1[0-2]|0[1-9]|[1-9])`. -/
def monthCands : List Char → List (Nat × List Char)
  | [] => []
  | c1 :: rest =>
    (match rest with
     | [] => []
     | c2 :: rest2 =>
       (if c1 = '1' ∧ (c2 = '0' ∨ c2 = '1' ∨ c2 = '2') then
         [(10 + digitVal c2, rest2)] else []) ++
       (if c1 = '0' ∧ '1' ≤ c2 ∧ c2 ≤ '9' then [(digitVal c2, rest2)] else [])) ++
    (if '1' ≤ c1 ∧ c1 ≤ '9' then [(digitVal c1, rest)] else [])

/-- `%Y`: exactly four digits. -/
def pYear4 : List Char → Option (Nat × List Char)
  | c1 :: c2 :: c3 :: c4 :: rest =>
    if isDigitCh c1 ∧ isDigitCh c2 ∧ isDigitCh c3 ∧ isDigitCh c4 then
      some (digitVal c1 * 1000 + digitVal c2 * 100 + digitVal c3 * 10 + digitVal c4,
            rest)
    else none
  | _ => none

/-- `'%b %d, %Y'`. -/
def fmt1 (cs : List Char) : Option (Nat × Nat × Nat) :=
  (pMonth monthAbbrs cs).bind fun mr =>
    (pWS mr.2).bind fun r2 =>
      (dayCands r2).findSome? fun dr =>
        (pLit ',' dr.2).bind fun r4 =>
          (pWS r4).bind fun r5 =>
            (pYear4 r5).bind fun yr =>
              if yr.2 = [] then some (yr.1, mr.1, dr.1) else none

/-- `'%B %d, %Y'`. -/
def fmt2 (cs : List Char) : Option (Nat × Nat × Nat) :=
  (pMonth monthFulls cs).bind fun mr =>
    (pWS mr.2).bind fun r2 =>
      (dayCands r2).findSome? fun dr =>
        (pLit ',' dr.2).bind fun r4 =>
          (pWS r4).bind fun r5 =>
            (pYear4 r5).bind fun yr =>
              if yr.2 = [] then some (yr.1, mr.1, dr.1) else none

/-- `'%d %b, %Y'`. -/
def fmt3 (cs : List Char) : Option (Nat × Nat × Nat) :=
  (dayCands cs).findSome? fun dr =>
    (pWS dr.2).bind fun r2 =>
      (pMonth monthAbbrs r2).bind fun mr =>
        (pLit ',' mr.2).bind fun r4 =>
          (pWS r4).bind fun r5 =>
            (pYear4 r5).bind fun yr =>
              if yr.2 = [] then some (yr.1, mr.1, dr.1) else none

/-- `'%d %B, %Y'`. -/
def fmt4 (cs : List Char) : Option (Nat × Nat × Nat) :=
  (dayCands cs).findSome? fun dr =>
    (pWS dr.2).bind fun r2 =>
      (pMonth monthFulls r2).bind fun mr =>
        (pLit ',' mr.2).bind fun r4 =>
          (pWS r4).bind fun r5 =>
            (pYear4 r5).bind fun yr =>
              if yr.2 = [] then some (yr.1, mr.1, dr.1) else none

/-- `'%d %b %Y'`. -/
def fmt5 (cs : List Char) : Option (Nat × Nat × Nat) :=
  (dayCands cs).findSome? fun dr =>
    (pWS dr.2).bind fun r2 =>
      (pMonth monthAbbrs r2).bind fun mr =>
        (pWS mr.2).bind fun r4 =>
          (pYear4 r4).bind fun yr =>
            if yr.2 = [] then some (yr.1, mr.1, dr.1) else none

/-- `'%d %B %Y'`. -/
def fmt6 (cs : List Char) : Option (Nat × Nat × Nat) :=
  (dayCands cs).findSome? fun dr =>
    (pWS dr.2).bind fun r2 =>
      (pMonth monthFulls r2).bind fun mr =>
        (pWS mr.2).bind fun r4 =>
          (pYear4 r4).bind fun yr =>
            if yr.2 = [] then some (yr.1, mr.1, dr.1) else none

/-- `'%b %d %Y'`. -/
def fmt7 (cs : List Char) : Option (Nat × Nat × Nat) :=
  (pMonth monthAbbrs cs).bind fun mr =>
    (pWS mr.2).bind fun r2 =>
      (dayCands r2).findSome? fun dr =>
        (pWS dr.2).bind fun r4 =>
          (pYear4 r4).bind fun yr =>
            if yr.2 = [] then some (yr.1, mr.1, dr.1) else none

/-- `'%B %d %Y'`. -/
def fmt8 (cs : List Char) : Option (Nat × Nat × Nat) :=
  (pMonth monthFulls cs).bind fun mr =>
    (pWS mr.2).bind fun r2 =>
      (dayCands r2).findSome? fun dr =>
        (pWS dr.2).bind fun r4 =>
          (pYear4 r4).bind fun yr =>
            if yr.2 = [] then some (yr.1, mr.1, dr.1) else none

/-- `'%Y-%m-%d'`. -/
def fmt9 (cs : List Char) : Option (Nat × Nat × Nat) :=
  (pYear4 cs).bind fun yr =>
    (pLit '-' yr.2).bind fun r2 =>
      (monthCands r2).findSome? fun mr =>
        (pLit '-' mr.2).bind fun r4 =>
          (dayCands r4).findSome? fun dr =>
            if dr.2 = [] then some (yr.1, mr.1, dr.1) else none

/-- `'%m/%d/%Y'`. -/
def fmt10 (cs : List Char) : Option (Nat × Nat × Nat) :=
  (monthCands cs).findSome? fun mr =>
    (pLit '/' mr.2).bind fun r2 =>
      (dayCands r2).findSome? fun dr =>
        (pLit '/' dr.2).bind fun r4 =>
          (pYear4 r4).bind fun yr =>
            if yr.2 = [] then some (yr.1, mr.1, dr.1) else none

/-- `'%d/%m/%Y'`. -/
def fmt11 (cs : List Char) : Option (Nat × Nat × Nat) :=
  (dayCands cs).findSome? fun dr =>
    (pLit '/' dr.2).bind fun r2 =>
      (monthCands r2).findSome? fun mr =>
        (pLit '/' mr.2).bind fun r4 =>
          (pYear4 r4).bind fun yr =>
            if yr.2 = [] then some (yr.1, mr.1, dr.1) else none

/-- `'%Y'` (year only). -/
def fmt12 (cs : List Char) : Option (Nat × Nat × Nat) :=
  (pYear4 cs).bind fun yr =>
    if yr.2 = [] then some (yr.1, 1, 1) else none

/-- Gregorian leap year, as in `datetime`. -/
def isLeap (y : Nat) : Bool := y % 4 = 0 ∧ (y % 100 ≠ 0 ∨ y % 400 = 0)

def daysInMonth (y m : Nat) : Nat :=
  if m = 2 then (if isLeap y then 29 else 28)
  else if m = 4 ∨ m = 6 ∨ m = 9 ∨ m = 11 then 30 else 31

/-- `datetime(y, m, d)` succeeds: `MINYEAR ≤ y ≤ MAXYEAR` and a valid
calendar day (month bounds are already guaranteed by the regexes). -/
def dateOK (y m d : Nat) : Bool :=
  1 ≤ y ∧ y ≤ 9999 ∧ 1 ≤ m ∧ m ≤ 12 ∧ 1 ≤ d ∧ d ≤ daysInMonth y m

/-- The format list of `_standardize_date`, in order; the flag marks the
year-only format `'%Y'`, whose result is rendered specially. -/
def dateFmts : List ((List Char → Option (Nat × Nat × Nat)) × Bool) :=
  [(fmt1, false), (fmt2, false), (fmt3, false), (fmt4, false),
   (fmt5, false), (fmt6, false), (fmt7, false), (fmt8, false),
   (fmt9, false), (fmt10, false), (fmt11, false), (fmt12, true)]

/-- Try the formats in order; a format only succeeds when the parsed
triple is a constructible `datetime` (otherwise `strptime` raised and the
loop continues). -/
def tryFormats (cs : List Char) : Option ((Nat × Nat × Nat) × Bool) :=
  dateFmts.findSome? fun pf =>
    (pf.1 cs).bind fun ymd =>
      if dateOK ymd.1 ymd.2.1 ymd.2.2 then some (ymd, pf.2) else none

/-- Little-endian decimal digits of `n` (with fuel; empty for `0`). -/
def natDigitsRev : Nat → Nat → List Nat
  | 0, _ => []
  | fuel + 1, n => if n = 0 then [] else n % 10 :: natDigitsRev fuel (n / 10)

/-- Python `str(n)` for a natural number. -/
def natStr (n : Nat) : List Char :=
  if n = 0 then ['0'] else ((natDigitsRev n n).map digitCh).reverse

/-- `strftime` zero-padded two-digit field (`%m`, `%d`). -/
def pad2 (n : Nat) : List Char := if n < 10 then ['0', digitCh n] else natStr n

/-- `date_obj.strftime('%Y-%m-%d')`.  (glibc's `%Y` does not zero-pad
years below 1000; all years of interest have four digits.) -/
def fmtISO (y m d : Nat) : List Char := natStr y ++ '-' :: (pad2 m ++ '-' :: pad2 d)

/-- After a `'('`, find the next `')'` with no intervening newline
(`.` does not match `\n`), returning the suffix after it. -/
def findClose : List Char → Option (List Char)
  | [] => none
  | c :: cs => if c = ')' then some cs else if c = '\n' then none else findClose cs

/-- `re.sub(r'\(.*?\)', '', s)`: left-to-right removal of parenthesized
chunks (fuel-driven; `cs.length` is always enough since every step
consumes at least one character). -/
def removeParensF : Nat → List Char → List Char
  | 0, cs => cs
  | _ + 1, [] => []
  | fuel + 1, c :: cs =>
    if c = '(' then
      match findClose cs with
      | some rest => removeParensF fuel rest
      | none => c :: removeParensF fuel cs
    else c :: removeParensF fuel cs

def removeParens (cs : List Char) : List Char := removeParensF cs.length cs

/-- Word characters for the regex `\b` boundary. -/
def isWordCh (c : Char) : Bool :=
  isDigitCh c ∨ ('a' ≤ c ∧ c ≤ 'z') ∨ ('A' ≤ c ∧ c ≤ 'Z') ∨ c = '_'

/-- Does `\b(19|20)\d{2}\b` match at this position (`prev` is the
preceding character, if any)?  Returns the matched four characters. -/
def yearAt (prev : Option Char) : List Char → Option (List Char)
  | c1 :: c2 :: c3 :: c4 :: rest =>
    if (prev.all fun p => !isWordCh p) ∧
       ((c1 = '1' ∧ c2 = '9') ∨ (c1 = '2' ∧ c2 = '0')) ∧
       isDigitCh c3 ∧ isDigitCh c4 ∧
       (rest.head?.all fun r => !isWordCh r) then
      some [c1, c2, c3, c4]
    else none
  | _ => none

/-- Leftmost match of `re.search(r'\b(19|20)\d{2}\b', s)`. -/
def yearScanF (prev : Option Char) : List Char → Option (List Char)
  | [] => none
  | c :: cs =>
    match yearAt prev (c :: cs) with
    | some ys => some ys
    | none => yearScanF (some c) cs

def yearScan (cs : List Char) : Option (List Char) := yearScanF none cs

/-- `DataCleaner._standardize_date`: non-strings and the placeholder
tokens map to `None`; otherwise parenthesized chunks are removed, the
string is stripped and the formats are tried in order (year-only renders
as `f"{year}-01-01"`); on failure a `\b(19|20)\d{2}\b` scan yields
`"YYYY-01-01"`, and `None` otherwise. -/
def standardize_date : Option String → Option String
  | none => none
  | some s =>
    if s = "N/A" ∨ s = "TBA" ∨ s = "" then none
    else
      match tryFormats (stripList (removeParens s.data)) with
      | some (ymd, isYearOnly) =>
        if isYearOnly then some ⟨natStr ymd.1 ++ "-01-01".data⟩
        else some ⟨fmtISO ymd.1 ymd.2.1 ymd.2.2⟩
      | none =>
        match yearScan (stripList (removeParens s.data)) with
        | some ys => some ⟨ys ++ "-01-01".data⟩
        | none => none

/-! ## C7: concrete date parsing and the year fallback -/

/-- **C7**: `"Jan 1, 2020"`, `"01/01/2020"` and `"2020"` all standardize
to `"2020-01-01"`; when no fixed format matches (and the input is not a
placeholder token), the result is exactly the `\b(19|20)\d{2}\b` year
scan rendered as `"YYYY-01-01"` — e.g. `"Sometime in 2021!"` gives
`"2021-01-01"` — and `None` when that scan also fails
(`"coming soon"`). -/
theorem c7_date_parsing :
    standardize_date (some "Jan 1, 2020") = some "2020-01-01" ∧
    standardize_date (some "01/01/2020") = some "2020-01-01" ∧
    standardize_date (some "2020") = some "2020-01-01" ∧
    (∀ s : String, ¬(s = "N/A" ∨ s = "TBA" ∨ s = "") →
      tryFormats (stripList (removeParens s.data)) = none →
      standardize_date (some s) =
        (yearScan (stripList (removeParens s.data))).map
          fun ys => (⟨ys ++ "-01-01".data⟩ : String)) ∧
    standardize_date (some "Sometime in 2021!") = some "2021-01-01" ∧
    standardize_date (some "coming soon") = none := by
  refine ⟨by decide, by decide, by decide, ?_, by decide, by decide⟩
  intro s hs htf
  simp only [standardize_date]
  rw [if_neg hs, htf]
  cases yearScan (stripList (removeParens s.data)) <;> rfl

/-- Witness for the fallback branch of C7 at a concrete input. -/
theorem c7_date_parsing_witness :
    standardize_date (some "coming 2022") =
      (yearScan (stripList (removeParens "coming 2022".data))).map
        fun ys => (⟨ys ++ "-01-01".data⟩ : String) :=
  c7_date_parsing.2.2.2.1 "coming 2022" (by decide) (by decide)

/-! ## C8: idempotence of title cleanup and date standardization -/

/-- **C8 counterexample**: title cleanup is not idempotent — a second
enumeration prefix surfaces after the first is stripped — and date
standardization is not idempotent either: `"0500"` standardizes to
`"500-01-01"` (the year-only branch does not zero-pad), which
re-standardizes to `None`, not to itself. -/
theorem c8_counterexample :
    clean_game_title (clean_game_title (some "12. 34. Elden")) ≠
      clean_game_title (some "12. 34. Elden") ∧
    standardize_date (some "0500") = some "500-01-01" ∧
    standardize_date (standardize_date (some "0500")) = none := by
  refine ⟨by decide, by decide, by decide⟩

/-- Does the string begin with `\d+\.` (the pattern stripped by
`clean_game_title`)? -/
def startsWithEnum (cs : List Char) : Bool :=
  match cs.takeWhile isDigitCh, cs.drop (cs.takeWhile isDigitCh).length with
  | _ :: _, '.' :: _ => true
  | _, _ => false

lemma head_dropWhile_false (p : Char → Bool) (l : List Char) :
    ∀ c, (l.dropWhile p).head? = some c → p c = false := by
  induction l with
  | nil => intro c hc; cases hc
  | cons x xs ih =>
    intro c hc
    by_cases hx : p x
    · rw [List.dropWhile_cons_of_pos hx] at hc
      exact ih c hc
    · rw [List.dropWhile_cons_of_neg hx] at hc
      cases hc
      cases hpx : p x
      · rfl
      · exact absurd hpx hx

lemma stripList_idem (cs : List Char) : stripList (stripList cs) = stripList cs := by
  have hdrop : (stripList cs).dropWhile isPySpace = stripList cs := by
    obtain ⟨t, ht⟩ := List.rdropWhile_prefix (p := isPySpace)
      (l := cs.dropWhile isPySpace)
    cases hr : stripList cs with
    | nil => rfl
    | cons x xs =>
      have hx : isPySpace x = false := by
        rw [stripList] at hr
        rw [hr] at ht
        apply head_dropWhile_false isPySpace cs
        rw [← ht]
        rfl
      rw [List.dropWhile_cons_of_neg (by rw [hx]; exact Bool.false_ne_true)]
  rw [stripList, hdrop, stripList, List.rdropWhile_idempotent]

lemma cleanTitleChars_of_not_enum (cs : List Char) (h : startsWithEnum cs = false) :
    cleanTitleChars cs = stripList cs := by
  unfold cleanTitleChars
  split
  · next heq1 heq2 =>
    exfalso
    rw [startsWithEnum, heq2, heq1] at h
    cases h
  · rfl

lemma cleanTitleChars_stripped (cs : List Char) :
    stripList (cleanTitleChars cs) = cleanTitleChars cs := by
  unfold cleanTitleChars
  split
  · exact stripList_idem _
  · exact stripList_idem _

/-! ### Digit and decimal-printing lemmas -/

lemma isDigitCh_cases (c : Char) (h : isDigitCh c = true) :
    c = '0' ∨ c = '1' ∨ c = '2' ∨ c = '3' ∨ c = '4' ∨
    c = '5' ∨ c = '6' ∨ c = '7' ∨ c = '8' ∨ c = '9' := by
  rw [isDigitCh, decide_eq_true_iff] at h
  exact h

lemma digitVal_digitCh (k : Nat) (h : k < 10) : digitVal (digitCh k) = k := by
  interval_cases k <;> decide

lemma isDigitCh_digitCh (k : Nat) (h : k < 10) : isDigitCh (digitCh k) = true := by
  interval_cases k <;> decide

lemma digitCh_digitVal (c : Char) (h : isDigitCh c = true) :
    digitCh (digitVal c) = c := by
  rcases isDigitCh_cases c h with rfl | rfl | rfl | rfl | rfl | rfl | rfl | rfl | rfl | rfl <;>
    decide

lemma natDigitsRev_zero (fuel : Nat) : natDigitsRev fuel 0 = [] := by
  cases fuel <;> simp [natDigitsRev]

lemma natDigitsRev_fuel :
    ∀ f1 n f2, n ≤ f1 → n ≤ f2 → natDigitsRev f1 n = natDigitsRev f2 n := by
  intro f1
  induction f1 with
  | zero =>
    intro n f2 h1 _
    have : n = 0 := Nat.le_zero.mp h1
    subst this
    rw [natDigitsRev_zero, natDigitsRev_zero]
  | succ f ih =>
    intro n f2 h1 h2
    rcases Nat.eq_zero_or_pos n with rfl | hn
    · rw [natDigitsRev_zero, natDigitsRev_zero]
    · obtain ⟨g, rfl⟩ : ∃ g, f2 = g + 1 := ⟨f2 - 1, by omega⟩
      have hne : ¬ (n = 0) := by omega
      simp only [natDigitsRev, hne, if_false]
      congr 1
      exact ih (n / 10) g (by omega) (by omega)

lemma natDigitsRev_step (n : Nat) (hn : 0 < n) :
    natDigitsRev n n = n % 10 :: natDigitsRev (n / 10) (n / 10) := by
  obtain ⟨f, hf⟩ : ∃ f, n = f + 1 := ⟨n - 1, by omega⟩
  conv_lhs => rw [hf]
  have hne : ¬ (n = 0) := by omega
  simp only [natDigitsRev, ← hf, hne, if_false]
  congr 1
  exact natDigitsRev_fuel f (n / 10) (n / 10) (by omega) (le_refl _)

lemma natDigitsRev_small (n : Nat) (h1 : 0 < n) (h2 : n < 10) :
    natDigitsRev n n = [n] := by
  rw [natDigitsRev_step n h1, Nat.mod_eq_of_lt h2, Nat.div_eq_of_lt h2,
    natDigitsRev_zero]

lemma natStr4 (y : Nat) (h1 : 1000 ≤ y) (h2 : y ≤ 9999) :
    natStr y = [digitCh (y / 1000), digitCh (y / 100 % 10),
                digitCh (y / 10 % 10), digitCh (y % 10)] := by
  have hy0 : ¬ (y = 0) := by omega
  rw [natStr, if_neg hy0]
  rw [natDigitsRev_step y (by omega)]
  rw [natDigitsRev_step (y / 10) (by omega)]
  rw [natDigitsRev_step (y / 10 / 10) (by omega)]
  have e1 : y / 10 / 10 = y / 100 := by omega
  have e2 : y / 10 / 10 / 10 = y / 1000 := by omega
  rw [e1] at *
  rw [e2]
  rw [natDigitsRev_small (y / 1000) (by omega) (by omega)]
  have e3 : y / 1000 % 10 = y / 1000 := Nat.mod_eq_of_lt (by omega)
  simp [e3]

lemma natStr2 (m : Nat) (h1 : 10 ≤ m) (h2 : m ≤ 99) :
    natStr m = [digitCh (m / 10), digitCh (m % 10)] := by
  have hm0 : ¬ (m = 0) := by omega
  rw [natStr, if_neg hm0]
  rw [natDigitsRev_step m (by omega)]
  rw [natDigitsRev_small (m / 10) (by omega) (by omega)]
  simp

lemma pYear4_natStr (y : Nat) (h1 : 1000 ≤ y) (h2 : y ≤ 9999) (rest : List Char) :
    pYear4 (natStr y ++ rest) = some (y, rest) := by
  rw [natStr4 y h1 h2]
  show pYear4 (digitCh (y / 1000) :: digitCh (y / 100 % 10) ::
    digitCh (y / 10 % 10) :: digitCh (y % 10) :: rest) = some (y, rest)
  rw [pYear4]
  rw [if_pos ⟨isDigitCh_digitCh _ (by omega), isDigitCh_digitCh _ (by omega),
    isDigitCh_digitCh _ (by omega), isDigitCh_digitCh _ (by omega)⟩]
  congr 1
  rw [digitVal_digitCh _ (by omega), digitVal_digitCh _ (by omega),
    digitVal_digitCh _ (by omega), digitVal_digitCh _ (by omega)]
  have : y / 1000 * 1000 + y / 100 % 10 * 100 + y / 10 % 10 * 10 + y % 10 = y := by
    omega
  rw [this]

lemma pad2_eq (n : Nat) (h : n ≤ 99) :
    pad2 n = [digitCh (n / 10), digitCh (n % 10)] := by
  rw [pad2]
  split
  · next hlt =>
    rw [show n / 10 = 0 from by omega, show n % 10 = n from by omega]
    rfl
  · next hge => exact natStr2 n (by omega) h

lemma monthCands_pad2_lt10 (m : Nat) (h1 : 1 ≤ m) (h2 : m ≤ 9) (rest : List Char) :
    monthCands (pad2 m ++ rest) = [(m, rest)] := by
  rw [pad2_eq m (by omega)]
  interval_cases m <;> simp [monthCands, digitCh, digitVal, isDigitCh]

lemma monthCands_pad2_ge10 (m : Nat) (h1 : 10 ≤ m) (h2 : m ≤ 12) (rest : List Char) :
    monthCands (pad2 m ++ rest) = [(m, rest), (1, digitCh (m % 10) :: rest)] := by
  rw [pad2_eq m (by omega)]
  interval_cases m <;> simp [monthCands, digitCh, digitVal, isDigitCh]

lemma dayCands_pad2_lt10 (d : Nat) (h1 : 1 ≤ d) (h2 : d ≤ 9) (rest : List Char) :
    dayCands (pad2 d ++ rest) = [(d, rest)] := by
  rw [pad2_eq d (by omega)]
  interval_cases d <;> simp [dayCands, digitCh, digitVal, isDigitCh]

lemma dayCands_pad2_ge10 (d : Nat) (h1 : 10 ≤ d) (h2 : d ≤ 31) (rest : List Char) :
    dayCands (pad2 d ++ rest) = [(d, rest), (d / 10, digitCh (d % 10) :: rest)] := by
  rw [pad2_eq d (by omega)]
  interval_cases d <;> simp [dayCands, digitCh, digitVal, isDigitCh]

lemma month_step {α : Type} (m : Nat) (h1 : 1 ≤ m) (h2 : m ≤ 12) (rest : List Char)
    (g : Nat → List Char → Option α) :
    ((monthCands (pad2 m ++ '-' :: rest)).findSome? fun mr =>
        (pLit '-' mr.2).bind fun r => g mr.1 r) = g m rest := by
  by_cases hm : m ≤ 9
  · rw [monthCands_pad2_lt10 m h1 hm ('-' :: rest), List.findSome?_cons]
    cases hg : g m rest with
    | none => simp [pLit, hg]
    | some b => simp [pLit, hg]
  · rw [monthCands_pad2_ge10 m (by omega) h2 ('-' :: rest), List.findSome?_cons]
    have hd : digitCh (m % 10) ≠ '-' := by
      have h3 : m % 10 = 0 ∨ m % 10 = 1 ∨ m % 10 = 2 := by omega
      rcases h3 with h3 | h3 | h3 <;> rw [h3] <;> decide
    cases hg : g m rest with
    | none => simp [pLit, hg, List.findSome?_cons, hd]
    | some b => simp [pLit, hg]

lemma day_step (y m dd : Nat) (h1 : 1 ≤ dd) (h2 : dd ≤ 31) :
    ((dayCands (pad2 dd)).findSome? fun dr =>
        if dr.2 = ([] : List Char) then some (y, m, dr.1) else none) =
      some (y, m, dd) := by
  have hnil : pad2 dd = pad2 dd ++ [] := by rw [List.append_nil]
  by_cases hd : dd ≤ 9
  · rw [hnil, dayCands_pad2_lt10 dd h1 hd [], List.findSome?_cons]
    simp
  · rw [hnil, dayCands_pad2_ge10 dd (by omega) h2 [], List.findSome?_cons]
    simp

lemma daysInMonth_le (y m : Nat) : daysInMonth y m ≤ 31 := by
  rw [daysInMonth]
  split_ifs <;> omega

lemma dateOK_spec (y m dd : Nat) (h : dateOK y m dd = true) :
    1 ≤ y ∧ y ≤ 9999 ∧ 1 ≤ m ∧ m ≤ 12 ∧ 1 ≤ dd ∧ dd ≤ 31 := by
  rw [dateOK, decide_eq_true_iff] at h
  obtain ⟨a, b, c, d, e, f⟩ := h
  exact ⟨a, b, c, d, e, f.trans (daysInMonth_le y m)⟩

lemma fmt9_reparse (y m dd : Nat) (h : dateOK y m dd = true) (hy : 1000 ≤ y) :
    fmt9 (fmtISO y m dd) = some (y, m, dd) := by
  obtain ⟨hy1, hy2, hm1, hm2, hd1, hd2⟩ := dateOK_spec y m dd h
  unfold fmt9 fmtISO
  rw [pYear4_natStr y hy hy2 ('-' :: (pad2 m ++ '-' :: pad2 dd))]
  show ((monthCands (pad2 m ++ '-' :: pad2 dd)).findSome? fun mr =>
      (pLit '-' mr.2).bind fun r4 =>
        (dayCands r4).findSome? fun dr =>
          if dr.2 = [] then some (y, mr.1, dr.1) else none) = some (y, m, dd)
  rw [month_step m hm1 hm2 (pad2 dd) (fun m2 r4 =>
    (dayCands r4).findSome? fun dr => if dr.2 = [] then some (y, m2, dr.1) else none)]
  exact day_step y m dd hd1 hd2

lemma findSome?_none {α β : Type} (l : List α) (f : α → Option β)
    (h : ∀ a ∈ l, f a = none) : l.findSome? f = none := by
  induction l with
  | nil => rfl
  | cons hd tl ih =>
    rw [List.findSome?_cons, h hd (List.mem_cons_self _ _)]
    exact ih fun a ha => h a (List.mem_cons_of_mem _ ha)

lemma lowerCh_of_digit (c : Char) (hc : isDigitCh c = true) : lowerCh c = c := by
  rcases isDigitCh_cases c hc with rfl | rfl | rfl | rfl | rfl | rfl | rfl | rfl | rfl | rfl <;>
    decide

lemma digit_not_lower_letter (c h : Char) (hc : isDigitCh c = true)
    (hh : 'a' ≤ h ∧ h ≤ 'z') : c ≠ h := by
  rcases isDigitCh_cases c hc with rfl | rfl | rfl | rfl | rfl | rfl | rfl | rfl | rfl | rfl <;>
    · rintro rfl
      revert hh
      decide

lemma pMonth_none_of_digit (tbl : List (List Char × Nat)) (c : Char) (rest : List Char)
    (hc : isDigitCh c = true)
    (htbl : ∀ e ∈ tbl, ∃ h t, e.1 = h :: t ∧ ('a' ≤ h ∧ h ≤ 'z')) :
    pMonth tbl (c :: rest) = none := by
  rw [pMonth]
  apply findSome?_none
  intro e he
  obtain ⟨h, t, he1, hh⟩ := htbl e he
  rw [if_neg]
  rw [he1]
  intro habs
  rw [List.length_cons, List.take_succ_cons, List.map_cons] at habs
  have : lowerCh c = h := (List.cons.injEq _ _ _ _ ▸ habs).1
  rw [lowerCh_of_digit c hc] at this
  exact digit_not_lower_letter c h hc hh this

lemma monthAbbrs_heads :
    ∀ e ∈ monthAbbrs, ∃ h t, e.1 = h :: t ∧ ('a' ≤ h ∧ h ≤ 'z') := by
  intro e he
  fin_cases he <;> exact ⟨_, _, rfl, by decide⟩

lemma monthFulls_heads :
    ∀ e ∈ monthFulls, ∃ h t, e.1 = h :: t ∧ ('a' ≤ h ∧ h ≤ 'z') := by
  intro e he
  fin_cases he <;> exact ⟨_, _, rfl, by decide⟩

lemma mem_dayCands_rest (c1 c2 : Char) (rest : List Char) :
    ∀ dr ∈ dayCands (c1 :: c2 :: rest), dr.2 = rest ∨ dr.2 = c2 :: rest := by
  intro dr h
  rw [dayCands] at h
  split_ifs at h <;> simp_all <;> rcases h with rfl | rfl <;> simp

lemma fmt_dayws_none {α : Type} (c1 c2 c3 : Char) (rest : List Char)
    (h2 : isPySpace c2 = false) (h3 : isPySpace c3 = false)
    (F : Nat → List Char → Option α) :
    ((dayCands (c1 :: c2 :: c3 :: rest)).findSome? fun dr =>
        (pWS dr.2).bind fun r2 => F dr.1 r2) = none := by
  apply findSome?_none
  intro dr hdr
  rcases mem_dayCands_rest c1 c2 (c3 :: rest) dr hdr with h | h <;> rw [h]
  · simp [pWS, h3]
  · simp [pWS, h2]

lemma isPySpace_digitCh (k : Nat) (h : k < 10) : isPySpace (digitCh k) = false := by
  interval_cases k <;> decide

lemma fmt1_none (c : Char) (rest : List Char) (hc : isDigitCh c = true) :
    fmt1 (c :: rest) = none := by
  unfold fmt1
  rw [pMonth_none_of_digit monthAbbrs c rest hc monthAbbrs_heads]
  rfl

lemma fmt2_none (c : Char) (rest : List Char) (hc : isDigitCh c = true) :
    fmt2 (c :: rest) = none := by
  unfold fmt2
  rw [pMonth_none_of_digit monthFulls c rest hc monthFulls_heads]
  rfl

lemma fmt7_none (c : Char) (rest : List Char) (hc : isDigitCh c = true) :
    fmt7 (c :: rest) = none := by
  unfold fmt7
  rw [pMonth_none_of_digit monthAbbrs c rest hc monthAbbrs_heads]
  rfl

lemma fmt8_none (c : Char) (rest : List Char) (hc : isDigitCh c = true) :
    fmt8 (c :: rest) = none := by
  unfold fmt8
  rw [pMonth_none_of_digit monthFulls c rest hc monthFulls_heads]
  rfl

lemma fmt3_none (c1 c2 c3 : Char) (rest : List Char)
    (h2 : isPySpace c2 = false) (h3 : isPySpace c3 = false) :
    fmt3 (c1 :: c2 :: c3 :: rest) = none := by
  unfold fmt3
  exact fmt_dayws_none c1 c2 c3 rest h2 h3 fun d r2 =>
    (pMonth monthAbbrs r2).bind fun mr =>
      (pLit ',' mr.2).bind fun r4 =>
        (pWS r4).bind fun r5 =>
          (pYear4 r5).bind fun yr =>
            if yr.2 = [] then some (yr.1, mr.1, d) else none

lemma fmt4_none (c1 c2 c3 : Char) (rest : List Char)
    (h2 : isPySpace c2 = false) (h3 : isPySpace c3 = false) :
    fmt4 (c1 :: c2 :: c3 :: rest) = none := by
  unfold fmt4
  exact fmt_dayws_none c1 c2 c3 rest h2 h3 fun d r2 =>
    (pMonth monthFulls r2).bind fun mr =>
      (pLit ',' mr.2).bind fun r4 =>
        (pWS r4).bind fun r5 =>
          (pYear4 r5).bind fun yr =>
            if yr.2 = [] then some (yr.1, mr.1, d) else none

lemma fmt5_none (c1 c2 c3 : Char) (rest : List Char)
    (h2 : isPySpace c2 = false) (h3 : isPySpace c3 = false) :
    fmt5 (c1 :: c2 :: c3 :: rest) = none := by
  unfold fmt5
  exact fmt_dayws_none c1 c2 c3 rest h2 h3 fun d r2 =>
    (pMonth monthAbbrs r2).bind fun mr =>
      (pWS mr.2).bind fun r4 =>
        (pYear4 r4).bind fun yr =>
          if yr.2 = [] then some (yr.1, mr.1, d) else none

lemma fmt6_none (c1 c2 c3 : Char) (rest : List Char)
    (h2 : isPySpace c2 = false) (h3 : isPySpace c3 = false) :
    fmt6 (c1 :: c2 :: c3 :: rest) = none := by
  unfold fmt6
  exact fmt_dayws_none c1 c2 c3 rest h2 h3 fun d r2 =>
    (pMonth monthFulls r2).bind fun mr =>
      (pWS mr.2).bind fun r4 =>
        (pYear4 r4).bind fun yr =>
          if yr.2 = [] then some (yr.1, mr.1, d) else none

lemma fmtISO_shape (y m dd : Nat) (hy : 1000 ≤ y) (hy2 : y ≤ 9999) :
    fmtISO y m dd = digitCh (y / 1000) :: digitCh (y / 100 % 10) ::
      digitCh (y / 10 % 10) :: digitCh (y % 10) :: '-' :: (pad2 m ++ '-' :: pad2 dd) := by
  unfold fmtISO
  rw [natStr4 y hy hy2]
  rfl

lemma tryFormats_fmtISO (y m dd : Nat) (h : dateOK y m dd = true) (hy : 1000 ≤ y) :
    tryFormats (fmtISO y m dd) = some ((y, m, dd), false) := by
  obtain ⟨hy1, hy2, hm1, hm2, hd1, hd2⟩ := dateOK_spec y m dd h
  have hshape := fmtISO_shape y m dd hy hy2
  have h9 : fmt9 (fmtISO y m dd) = some (y, m, dd) := fmt9_reparse y m dd h hy
  have hh1 : fmt1 (fmtISO y m dd) = none := by
    rw [hshape]; exact fmt1_none _ _ (isDigitCh_digitCh _ (by omega))
  have hh2 : fmt2 (fmtISO y m dd) = none := by
    rw [hshape]; exact fmt2_none _ _ (isDigitCh_digitCh _ (by omega))
  have hh7 : fmt7 (fmtISO y m dd) = none := by
    rw [hshape]; exact fmt7_none _ _ (isDigitCh_digitCh _ (by omega))
  have hh8 : fmt8 (fmtISO y m dd) = none := by
    rw [hshape]; exact fmt8_none _ _ (isDigitCh_digitCh _ (by omega))
  have hh3 : fmt3 (fmtISO y m dd) = none := by
    rw [hshape]
    exact fmt3_none _ _ _ _ (isPySpace_digitCh _ (by omega)) (isPySpace_digitCh _ (by omega))
  have hh4 : fmt4 (fmtISO y m dd) = none := by
    rw [hshape]
    exact fmt4_none _ _ _ _ (isPySpace_digitCh _ (by omega)) (isPySpace_digitCh _ (by omega))
  have hh5 : fmt5 (fmtISO y m dd) = none := by
    rw [hshape]
    exact fmt5_none _ _ _ _ (isPySpace_digitCh _ (by omega)) (isPySpace_digitCh _ (by omega))
  have hh6 : fmt6 (fmtISO y m dd) = none := by
    rw [hshape]
    exact fmt6_none _ _ _ _ (isPySpace_digitCh _ (by omega)) (isPySpace_digitCh _ (by omega))
  rw [tryFormats, dateFmts]
  simp only [List.findSome?_cons, hh1, hh2, hh3, hh4, hh5, hh6, hh7, hh8, h9,
    Option.none_bind, Option.some_bind, h, if_true]

lemma tryFormats_dateOK (cs : List Char) (ymd : Nat × Nat × Nat) (flag : Bool)
    (h : tryFormats cs = some (ymd, flag)) :
    dateOK ymd.1 ymd.2.1 ymd.2.2 = true := by
  rw [tryFormats] at h
  obtain ⟨pf, _, hf⟩ := List.exists_of_findSome?_eq_some h
  cases hres : pf.1 cs with
  | none => rw [hres] at hf; cases hf
  | some v =>
    rw [hres] at hf
    simp only [Option.some_bind] at hf
    split_ifs at hf with hOK
    obtain ⟨rfl, rfl⟩ := Prod.mk.inj (Option.some.inj hf)
    exact hOK

lemma fmtISO_year_only (y : Nat) : natStr y ++ "-01-01".data = fmtISO y 1 1 := by
  unfold fmtISO
  congr 1

lemma dateOK_Jan1 (y : Nat) (h1 : 1 ≤ y) (h2 : y ≤ 9999) : dateOK y 1 1 = true := by
  rw [dateOK, decide_eq_true_iff]
  refine ⟨h1, h2, by omega, by omega, by omega, ?_⟩
  rw [daysInMonth]
  norm_num

lemma digitVal_lt10 (c : Char) (h : isDigitCh c = true) : digitVal c < 10 := by
  rcases isDigitCh_cases c h with rfl | rfl | rfl | rfl | rfl | rfl | rfl | rfl | rfl | rfl <;>
    decide

lemma yearScanF_shape (cs : List Char) :
    ∀ prev ys, yearScanF prev cs = some ys →
      ∃ c1 c2 c3 c4, ys = [c1, c2, c3, c4] ∧
        ((c1 = '1' ∧ c2 = '9') ∨ (c1 = '2' ∧ c2 = '0')) ∧
        isDigitCh c3 = true ∧ isDigitCh c4 = true := by
  induction cs with
  | nil => intro prev ys h; cases h
  | cons c cs ih =>
    intro prev ys h
    rw [yearScanF] at h
    cases hya : yearAt prev (c :: cs) with
    | some ys2 =>
      rw [hya] at h
      obtain rfl := Option.some.inj h
      rcases cs with _ | ⟨c2, _ | ⟨c3, _ | ⟨c4, rest⟩⟩⟩
      · simp [yearAt] at hya
      · simp [yearAt] at hya
      · simp [yearAt] at hya
      · rw [yearAt] at hya
        split_ifs at hya with hcond
        obtain rfl := Option.some.inj hya
        exact ⟨c, c2, c3, c4, rfl, hcond.2.1, hcond.2.2.1, hcond.2.2.2.1⟩
    | none =>
      rw [hya] at h
      exact ih (some c) ys h

/-- Every `some` output of `_standardize_date` is the ISO rendering of a
constructible date. -/
lemma standardize_date_shape (s d : String)
    (h : standardize_date (some s) = some d) :
    ∃ y m dd, dateOK y m dd = true ∧ d.data = fmtISO y m dd := by
  rw [standardize_date] at h
  split_ifs at h with htok
  rcases htf : tryFormats (stripList (removeParens s.data)) with _ | ⟨ymd, flag⟩
  · rw [htf] at h
    rcases hys : yearScan (stripList (removeParens s.data)) with _ | ys
    · rw [hys] at h
      cases h
    · rw [hys] at h
      obtain rfl := (Option.some.inj h).symm
      obtain ⟨c1, c2, c3, c4, rfl, h12, h3, h4⟩ := yearScanF_shape _ none ys hys
      have hv3 := digitVal_lt10 c3 h3
      have hv4 := digitVal_lt10 c4 h4
      rcases h12 with ⟨rfl, rfl⟩ | ⟨rfl, rfl⟩
      · refine ⟨1900 + 10 * digitVal c3 + digitVal c4, 1, 1,
          dateOK_Jan1 _ (by omega) (by omega), ?_⟩
        show ['1', '9', c3, c4] ++ "-01-01".data = _
        rw [← fmtISO_year_only]
        congr 1
        rw [natStr4 _ (by omega) (by omega)]
        rw [show (1900 + 10 * digitVal c3 + digitVal c4) / 1000 = 1 from by omega,
            show (1900 + 10 * digitVal c3 + digitVal c4) / 100 % 10 = 9 from by omega,
            show (1900 + 10 * digitVal c3 + digitVal c4) / 10 % 10 = digitVal c3 from by omega,
            show (1900 + 10 * digitVal c3 + digitVal c4) % 10 = digitVal c4 from by omega]
        rw [digitCh_digitVal c3 h3, digitCh_digitVal c4 h4]
        rfl
      · refine ⟨2000 + 10 * digitVal c3 + digitVal c4, 1, 1,
          dateOK_Jan1 _ (by omega) (by omega), ?_⟩
        show ['2', '0', c3, c4] ++ "-01-01".data = _
        rw [← fmtISO_year_only]
        congr 1
        rw [natStr4 _ (by omega) (by omega)]
        rw [show (2000 + 10 * digitVal c3 + digitVal c4) / 1000 = 2 from by omega,
            show (2000 + 10 * digitVal c3 + digitVal c4) / 100 % 10 = 0 from by omega,
            show (2000 + 10 * digitVal c3 + digitVal c4) / 10 % 10 = digitVal c3 from by omega,
            show (2000 + 10 * digitVal c3 + digitVal c4) % 10 = digitVal c4 from by omega]
        rw [digitCh_digitVal c3 h3, digitCh_digitVal c4 h4]
        rfl
  · rw [htf] at h
    have hOK := tryFormats_dateOK _ ymd flag htf
    cases flag with
    | true =>
      obtain rfl := (Option.some.inj h).symm
      refine ⟨ymd.1, 1, 1, ?_, ?_⟩
      · rw [dateOK, decide_eq_true_iff] at hOK
        exact dateOK_Jan1 ymd.1 hOK.1 hOK.2.1
      · show natStr ymd.1 ++ "-01-01".data = _
        exact fmtISO_year_only ymd.1
    | false =>
      obtain rfl := (Option.some.inj h).symm
      exact ⟨ymd.1, ymd.2.1, ymd.2.2, hOK, rfl⟩

lemma natStr3 (n : Nat) (h1 : 100 ≤ n) (h2 : n ≤ 999) :
    natStr n = [digitCh (n / 100), digitCh (n / 10 % 10), digitCh (n % 10)] := by
  have hn0 : ¬ (n = 0) := by omega
  rw [natStr, if_neg hn0]
  rw [natDigitsRev_step n (by omega)]
  rw [natDigitsRev_step (n / 10) (by omega)]
  have e1 : n / 10 / 10 = n / 100 := by omega
  rw [e1]
  rw [natDigitsRev_small (n / 100) (by omega) (by omega)]
  simp

lemma natStr_len_le3 (y : Nat) (h1 : 1 ≤ y) (h2 : y ≤ 999) :
    (natStr y).length ≤ 3 := by
  by_cases ha : y ≤ 9
  · rw [natStr, if_neg (by omega), natDigitsRev_small y (by omega) (by omega)]
    simp
  · by_cases hb : y ≤ 99
    · rw [natStr2 y (by omega) hb]
      simp
    · rw [natStr3 y (by omega) h2]
      simp

lemma fmtISO_length (y m dd : Nat) (hm : m ≤ 99) (hdd : dd ≤ 99) :
    (fmtISO y m dd).length = (natStr y).length + 6 := by
  rw [fmtISO]
  rw [pad2_eq m hm, pad2_eq dd hdd]
  simp only [List.length_append, List.length_cons, List.length_nil]

lemma fmtISO_chars (y m dd : Nat) (hy : 1000 ≤ y) (hy2 : y ≤ 9999)
    (hm : m ≤ 99) (hdd : dd ≤ 99) :
    ∀ c ∈ fmtISO y m dd, isDigitCh c = true ∨ c = '-' := by
  intro c hc
  rw [fmtISO, natStr4 y hy hy2, pad2_eq m hm, pad2_eq dd hdd] at hc
  simp only [List.cons_append, List.nil_append, List.mem_cons,
    List.not_mem_nil, or_false] at hc
  rcases hc with rfl | rfl | rfl | rfl | rfl | rfl | rfl | rfl | rfl | rfl
  exacts [Or.inl (isDigitCh_digitCh _ (by omega)),
    Or.inl (isDigitCh_digitCh _ (by omega)),
    Or.inl (isDigitCh_digitCh _ (by omega)),
    Or.inl (isDigitCh_digitCh _ (by omega)),
    Or.inr rfl,
    Or.inl (isDigitCh_digitCh _ (by omega)),
    Or.inl (isDigitCh_digitCh _ (by omega)),
    Or.inr rfl,
    Or.inl (isDigitCh_digitCh _ (by omega)),
    Or.inl (isDigitCh_digitCh _ (by omega))]

lemma removeParensF_id (fuel : Nat) :
    ∀ cs : List Char, '(' ∉ cs → removeParensF fuel cs = cs := by
  induction fuel with
  | zero => intro cs _; rfl
  | succ f ih =>
    intro cs h
    cases cs with
    | nil => rfl
    | cons c cs2 =>
      have hc : ¬ (c = '(') := fun habs => h (habs ▸ List.mem_cons_self _ _)
      rw [removeParensF, if_neg hc]
      rw [ih cs2 fun habs => h (List.mem_cons_of_mem _ habs)]

lemma stripList_id_of_no_ws (l : List Char) (h : ∀ c ∈ l, isPySpace c = false) :
    stripList l = l := by
  rw [stripList]
  have h1 : l.dropWhile isPySpace = l := by
    cases l with
    | nil => rfl
    | cons c cs =>
      rw [List.dropWhile_cons_of_neg]
      rw [h c (List.mem_cons_self _ _)]
      exact Bool.false_ne_true
  rw [h1]
  rw [List.rdropWhile_eq_self_iff]
  intro hl
  rw [h (l.getLast hl) (List.getLast_mem hl)]
  exact Bool.false_ne_true

/-- Re-standardizing a rendered date with a four-digit year reproduces it
exactly. -/
lemma standardize_date_fmtISO (y m dd : Nat) (h : dateOK y m dd = true)
    (hy : 1000 ≤ y) :
    standardize_date (some ⟨fmtISO y m dd⟩) = some ⟨fmtISO y m dd⟩ := by
  obtain ⟨hy1, hy2, hm1, hm2, hd1, hd2⟩ := dateOK_spec y m dd h
  have hchars := fmtISO_chars y m dd hy hy2 (by omega) (by omega)
  have hlen10 : (fmtISO y m dd).length = 10 := by
    rw [fmtISO_length y m dd (by omega) (by omega)]
    rw [natStr4 y hy hy2]
    rfl
  have htok : ¬((⟨fmtISO y m dd⟩ : String) = "N/A" ∨
      (⟨fmtISO y m dd⟩ : String) = "TBA" ∨ (⟨fmtISO y m dd⟩ : String) = "") := by
    rintro (habs | habs | habs) <;>
    · have hl := congrArg String.length habs
      rw [show String.length ⟨fmtISO y m dd⟩ = (fmtISO y m dd).length from rfl,
        hlen10] at hl
      cases hl
  have hpar : removeParens (fmtISO y m dd) = fmtISO y m dd := by
    apply removeParensF_id
    intro hmem
    rcases hchars '(' hmem with hd | hd
    · cases hd
    · cases hd
  have hstrip : stripList (fmtISO y m dd) = fmtISO y m dd := by
    apply stripList_id_of_no_ws
    intro c hc
    rcases hchars c hc with hd | rfl
    · rcases isDigitCh_cases c hd with rfl | rfl | rfl | rfl | rfl | rfl | rfl | rfl | rfl | rfl <;>
        decide
    · decide
  rw [standardize_date, if_neg htok]
  rw [show (⟨fmtISO y m dd⟩ : String).data = fmtISO y m dd from rfl]
  rw [hpar, hstrip, tryFormats_fmtISO y m dd h hy]
  rfl

/-- **C8 (amended)**: title cleanup is idempotent unless the cleaned
title again begins with an enumeration pattern `\d+\.` (which a second
pass would strip); date standardization is idempotent on every output
whose year has four digits (every output is `YYYY-MM-DD` with a valid
calendar date; only inputs like `"0500"`, whose year renders with fewer
digits, escape this). -/
theorem c8_idempotence (s1 sd d : String)
    (h1 : startsWithEnum (cleanTitleChars s1.data) = false)
    (h2 : standardize_date (some sd) = some d)
    (h3 : d.length = 10) :
    clean_game_title (clean_game_title (some s1)) = clean_game_title (some s1) ∧
    standardize_date (some d) = some d := by
  constructor
  · show some (⟨cleanTitleChars (⟨cleanTitleChars s1.data⟩ : String).data⟩ : String) =
      some (⟨cleanTitleChars s1.data⟩ : String)
    rw [show ((⟨cleanTitleChars s1.data⟩ : String)).data = cleanTitleChars s1.data from rfl]
    rw [cleanTitleChars_of_not_enum _ h1, cleanTitleChars_stripped]
  · obtain ⟨y, m, dd, hOK, hdata⟩ := standardize_date_shape sd d h2
    obtain ⟨hy1, hy2, hm1, hm2, hd1, hd2⟩ := dateOK_spec y m dd hOK
    have hlen' : (fmtISO y m dd).length = 10 := by
      rw [← hdata]
      exact h3
    have hy : 1000 ≤ y := by
      by_contra hcon
      have hle := natStr_len_le3 y hy1 (by omega)
      have := fmtISO_length y m dd (by omega) (by omega)
      omega
    have hd : d = ⟨fmtISO y m dd⟩ := by
      cases d
      cases hdata
      rfl
    rw [hd]
    exact standardize_date_fmtISO y m dd hOK hy

/-- Witness for the amended C8 at concrete inputs. -/
theorem c8_idempotence_witness :
    clean_game_title (clean_game_title (some "235. Great Game")) =
      clean_game_title (some "235. Great Game") ∧
    standardize_date (some "2020-01-01") = some "2020-01-01" :=
  c8_idempotence "235. Great Game" "Jan 1, 2020" "2020-01-01"
    (by decide) (by decide) (by decide)

end VGP
